import Mathlib

/-!
Verification of the getnode discovery-and-normalization pipeline.

This file gives a shallow embedding, in Lean 4, of the parts of the
getnode repository (src/tools.py, src/history_manager.py, src/repo_manager.py,
src/nodesjob.py, src/crawler.py) that the specified properties talk about,
and proves or refutes each property against that embedding.

Modelling conventions:
- Python dict-shaped node descriptors become association lists
  (List (String × String)); values are modelled as strings (the code
  stringifies ports before hashing, so nothing the proved properties
  depend on is lost).
- Python exceptions become Option results (none = an exception was raised
  and swallowed by the caller, exactly where the source swallows it).
- base64 / percent-encoding / URL splitting are modelled concretely for
  ASCII payloads; multi-byte UTF-8 payloads are conservatively rejected by
  the byte-to-text step (no verified property feeds non-ASCII bytes).
- The MD5 digest applied by tools.NodeUtils.generate_fingerprint is an
  external hash; the embedding works with the exact serialized string the
  source feeds to md5 (the digest pre-image).  Equality of fingerprints in
  the source is equality of digests; the embedding identifies the
  fingerprint with the canonical serialization, so "same fingerprint"
  statements are faithful, and "different fingerprint" statements hold for
  the source up to md5 collisions.
-/

/-! ## Small string utilities shared by the embedding -/

/-- The character list of a string (Lean string data). -/
def chars (s : String) : List Char := s.data

/-- Rebuild a string from a character list. -/
def ofChars (cs : List Char) : String := String.mk cs

/-- Does the character occur in the string (Python `c in s`). -/
def containsChar (s : String) (c : Char) : Bool := (chars s).contains c

/-- Python `s.split(sep, 1)` for a single-character separator: the part
before the first occurrence, and (if present) the part after it. -/
def splitFirstAux (c : Char) : List Char → (List Char × Option (List Char))
  | [] => ([], none)
  | x :: xs =>
    if x = c then ([], some xs)
    else
      let r := splitFirstAux c xs
      (x :: r.1, r.2)

/-- Python `s.split(sep, 1)` packaged on strings. -/
def splitFirst (s : String) (c : Char) : String × Option String :=
  let r := splitFirstAux c (chars s)
  (ofChars r.1, r.2.map ofChars)

/-- Python `s.split(sep)` (unbounded) for a single-character separator. -/
def splitAllAux (c : Char) : List Char → List (List Char)
  | [] => [[]]
  | x :: xs =>
    let r := splitAllAux c xs
    if x = c then [] :: r
    else
      match r with
      | [] => [[x]]
      | y :: ys => (x :: y) :: ys

/-- Python `s.split(sep)` packaged on strings. -/
def splitAll (s : String) (c : Char) : List String :=
  (splitAllAux c (chars s)).map ofChars

/-- Python `s.splitlines()` restricted to the newline separator
(the source contents handled by the claims use plain feeds). -/
def splitLines (s : String) : List String :=
  if s = "" then [] else splitAll s '\n'

/-- Python/ASCII whitespace for `str.strip()`. -/
def isPyWs (c : Char) : Bool :=
  c = ' ' ∨ c = '\t' ∨ c = '\n' ∨ c = '\r' ∨ c = '\x0b' ∨ c = '\x0c'

/-- Python `str.strip()` with no argument (whitespace trim). -/
def pyStrip (s : String) : String :=
  ofChars (((chars s).dropWhile isPyWs).reverse.dropWhile isPyWs |>.reverse)

/-- Python `s.startswith(prefixStr)` over character lists. -/
def startsWithStr (s pre : String) : Bool := (chars pre).isPrefixOf (chars s)

/-- Python `s.endswith(suffix)` over character lists. -/
def endsWithStr (s suf : String) : Bool :=
  (chars suf).reverse.isPrefixOf (chars s).reverse

/-- Python `s.strip(c)` for a one-character argument: drop leading and
trailing occurrences of that character. -/
def stripChar (s : String) (c : Char) : String :=
  ofChars (((chars s).dropWhile (· = c)).reverse.dropWhile (· = c) |>.reverse)

/-- ASCII lower-casing of a string (Python `str.lower()` on the ASCII
identifiers and URLs the claims exercise). -/
def lowerStr (s : String) : String := ofChars ((chars s).map Char.toLower)

/-- Hex digit value of a character, if it is one. -/
def hexVal (c : Char) : Option Nat :=
  if '0' ≤ c ∧ c ≤ '9' then some (c.toNat - '0'.toNat)
  else if 'a' ≤ c ∧ c ≤ 'f' then some (c.toNat - 'a'.toNat + 10)
  else if 'A' ≤ c ∧ c ≤ 'F' then some (c.toNat - 'A'.toNat + 10)
  else none

/-- Lower-case hex digit for a value below 16. -/
def hexDigit (n : Nat) : Char :=
  if n < 10 then Char.ofNat ('0'.toNat + n) else Char.ofNat ('a'.toNat + n - 10)

/-- urllib `unquote`: replace %XX escapes by the named byte (ASCII model);
anything else passes through unchanged. -/
def percentDecodeAux : List Char → List Char
  | [] => []
  | '%' :: h₁ :: h₂ :: rest =>
    match hexVal h₁, hexVal h₂ with
    | some a, some b => Char.ofNat (16 * a + b) :: percentDecodeAux rest
    | _, _ => '%' :: percentDecodeAux (h₁ :: h₂ :: rest)
  | x :: xs => x :: percentDecodeAux xs

/-- urllib `unquote` on strings. -/
def percentDecode (s : String) : String := ofChars (percentDecodeAux (chars s))

/-- Characters urllib `quote` leaves unescaped (default safe set plus the
always-safe alphanumerics and `_.-~`, with the default `safe='/'`). -/
def quoteSafe (c : Char) : Bool :=
  ('a' ≤ c ∧ c ≤ 'z') ∨ ('A' ≤ c ∧ c ≤ 'Z') ∨ ('0' ≤ c ∧ c ≤ '9') ∨
    c = '_' ∨ c = '.' ∨ c = '-' ∨ c = '~' ∨ c = '/'

/-- urllib `quote` (ASCII model): escape everything outside the safe set
as a %XX byte escape. -/
def percentEncodeAux : List Char → List Char
  | [] => []
  | c :: cs =>
    if quoteSafe c then c :: percentEncodeAux cs
    else '%' :: hexDigit (c.toNat / 16 % 16) :: hexDigit (c.toNat % 16) :: percentEncodeAux cs

/-- urllib `quote` on strings. -/
def percentEncode (s : String) : String := ofChars (percentEncodeAux (chars s))

/-! ## Base64 (Python `base64.b64decode` / `b64encode`, ASCII text model) -/

/-- Is the character in the standard base64 alphabet (no padding). -/
def b64AlphaChar (c : Char) : Bool :=
  ('A' ≤ c ∧ c ≤ 'Z') ∨ ('a' ≤ c ∧ c ≤ 'z') ∨ ('0' ≤ c ∧ c ≤ '9') ∨ c = '+' ∨ c = '/'

/-- Value of a base64 alphabet character. -/
def b64Val (c : Char) : Nat :=
  if 'A' ≤ c ∧ c ≤ 'Z' then c.toNat - 'A'.toNat
  else if 'a' ≤ c ∧ c ≤ 'z' then c.toNat - 'a'.toNat + 26
  else if '0' ≤ c ∧ c ≤ '9' then c.toNat - '0'.toNat + 52
  else if c = '+' then 62 else 63

/-- Base64 alphabet character for a value below 64. -/
def b64Chr (n : Nat) : Char :=
  if n < 26 then Char.ofNat ('A'.toNat + n)
  else if n < 52 then Char.ofNat ('a'.toNat + n - 26)
  else if n < 62 then Char.ofNat ('0'.toNat + n - 52)
  else if n = 62 then '+' else '/'

/-- Decode a run of base64 data characters (padding already stripped) into
bytes.  Groups of 4 chars give 3 bytes; a trailing group of 2 or 3 chars
gives 1 or 2 bytes (the discarded low bits follow the codec). -/
def b64DecodeBody : List Char → Option (List Nat)
  | [] => some []
  | [_] => none
  | [a, b] => some [(b64Val a * 4 + b64Val b / 16) % 256]
  | [a, b, c] =>
    some [(b64Val a * 4 + b64Val b / 16) % 256,
          (b64Val b % 16 * 16 + b64Val c / 4) % 256]
  | a :: b :: c :: d :: rest =>
    match b64DecodeBody rest with
    | none => none
    | some bs =>
      some ((b64Val a * 4 + b64Val b / 16) % 256 ::
            (b64Val b % 16 * 16 + b64Val c / 4) % 256 ::
            (b64Val c % 4 * 64 + b64Val d) % 256 :: bs)

/-- Python `base64.b64decode(s)` with the default `validate=False`:
characters outside the alphabet and padding are discarded first; the
remaining text must consist of data characters followed by at most two
padding characters, with total length a multiple of 4. -/
def b64DecodePython (s : String) : Option (List Nat) :=
  let kept := (chars s).filter (fun c => b64AlphaChar c ∨ c = '=')
  let body := kept.takeWhile (fun c => c ≠ '=')
  let pad := kept.drop body.length
  if pad.all (· = '=') ∧ pad.length ≤ 2 ∧ (body.length + pad.length) % 4 = 0 then
    b64DecodeBody body
  else none

/-- Python `base64.b64encode` over a byte list (with padding). -/
def b64EncodeBytes : List Nat → List Char
  | [] => []
  | [a] => [b64Chr (a / 4), b64Chr (a % 4 * 16), '=', '=']
  | [a, b] => [b64Chr (a / 4), b64Chr (a % 4 * 16 + b / 16), b64Chr (b % 16 * 4), '=']
  | a :: b :: c :: rest =>
    b64Chr (a / 4) :: b64Chr (a % 4 * 16 + b / 16) ::
      b64Chr (b % 16 * 4 + c / 64) :: b64Chr (c % 64) :: b64EncodeBytes rest

/-- `bytes.decode('utf-8')` modelled for ASCII payloads: every byte below
128 maps to its character; any higher byte makes the decode raise
(conservative for multi-byte sequences, which no claim feeds). -/
def bytesToAscii : List Nat → Option (List Char)
  | [] => some []
  | b :: bs =>
    if b < 128 then (bytesToAscii bs).map (Char.ofNat b :: ·)
    else none

/-- `str.encode('utf-8')` modelled for ASCII strings. -/
def asciiToBytes : List Char → Option (List Nat)
  | [] => some []
  | c :: cs =>
    if c.toNat < 128 then (asciiToBytes cs).map (c.toNat :: ·)
    else none

/-- Composite: base64-decode a string and decode the bytes as text
(`base64.b64decode(x).decode('utf-8')` with both failure modes). -/
def b64DecodeToText (s : String) : Option String :=
  match b64DecodePython s with
  | none => none
  | some bs => (bytesToAscii bs).map ofChars

/-- Composite: encode an ASCII string
(`base64.b64encode(x.encode()).decode()`). -/
def b64EncodeText (s : String) : Option String :=
  (asciiToBytes (chars s)).map (fun bs => ofChars (b64EncodeBytes bs))

/-! ## Node descriptors and the fingerprint (src/tools.py) -/

/-- A node descriptor: the source passes free-form Python dicts around;
the embedding uses insertion-ordered association lists with string
values (`str(port)` of the source makes ports strings before hashing). -/
abbrev Node := List (String × String)

/-- Python `node_data.get(key, default)`. -/
def nodeGet (n : Node) (k dflt : String) : String :=
  (List.lookup k n).getD dflt

/-- JSON string escaping as `json.dumps` performs it for the quote and
backslash (control characters do not occur in the contents the claims
exercise). -/
def jsonEscapeChar (c : Char) : List Char :=
  if c = '"' ∨ c = '\\' then ['\\', c] else [c]

/-- Escape a whole string for a JSON literal. -/
def jsonEscape (s : String) : List Char := (chars s).flatMap jsonEscapeChar

/-- Render one `"key": "value"` JSON member. -/
def renderPair (k v : String) : List Char :=
  '"' :: (jsonEscape k ++ '"' :: ':' :: ' ' :: '"' :: (jsonEscape v ++ ['"']))

/-- Render the members of a JSON object, separated by the default
`json.dumps` item separator. -/
def renderFields : List (String × String) → List Char
  | [] => []
  | [kv] => renderPair kv.1 kv.2
  | kv :: rest => renderPair kv.1 kv.2 ++ ',' :: ' ' :: renderFields rest

/-- Code-point lexicographic string comparison (Python string `<=`,
which `sort_keys=True` uses; ASCII here). -/
def strLeAux : List Char → List Char → Bool
  | [], _ => true
  | _ :: _, [] => false
  | a :: as, b :: bs =>
    if a.toNat < b.toNat then true
    else if a.toNat = b.toNat then strLeAux as bs
    else false

/-- `strLeAux` on strings. -/
def strLe (a b : String) : Bool := strLeAux (chars a) (chars b)

/-- Insert one pair into a key-sorted association list (stable). -/
def insertByKey (kv : String × String) : List (String × String) → List (String × String)
  | [] => [kv]
  | x :: xs => if strLe kv.1 x.1 then kv :: x :: xs else x :: insertByKey kv xs

/-- Sort an association list by key (Python `sort_keys=True`). -/
def sortByKey : List (String × String) → List (String × String)
  | [] => []
  | kv :: rest => insertByKey kv (sortByKey rest)

/-- `json.dumps(m, sort_keys=True)` for a flat string-valued dict. -/
def jsonDumpsSorted (m : List (String × String)) : String :=
  ofChars ('\x7b' :: (renderFields (sortByKey m) ++ ['\x7d']))

/-- tools.NodeUtils.generate_fingerprint.  The source md5-hashes the
serialized canonical field set; the embedding returns that serialized
string itself (the digest pre-image) — see the header note on MD5. -/
def generate_fingerprint (node_data : Node) : String :=
  let node_type := lowerStr (nodeGet node_data "type" "unknown")
  if node_type = "ss" then
    jsonDumpsSorted
      [("type", node_type), ("server", nodeGet node_data "server" ""),
       ("port", nodeGet node_data "port" ""),
       ("cipher", nodeGet node_data "cipher" ""),
       ("password", nodeGet node_data "password" "")]
  else if node_type = "vmess" then
    jsonDumpsSorted
      [("type", node_type), ("server", nodeGet node_data "server" ""),
       ("port", nodeGet node_data "port" ""),
       ("uuid", nodeGet node_data "uuid" ""),
       ("alterId", nodeGet node_data "alterId" "0"),
       ("network", nodeGet node_data "network" "tcp")]
  else if node_type = "trojan" then
    jsonDumpsSorted
      [("type", node_type), ("server", nodeGet node_data "server" ""),
       ("port", nodeGet node_data "port" ""),
       ("password", nodeGet node_data "password" ""),
       ("sni", nodeGet node_data "sni" "")]
  else
    jsonDumpsSorted node_data

/-! ## History merge (src/history_manager.py) -/

/-- The fresh-batch argument of merge_nodes: the source passes the
parse-report dict and reads its `nodes` entry. -/
structure MergeInput where
  nodes : List Node

/-- One of the two identical for-loops of HistoryManager.merge_nodes:
thread a seen-fingerprint set and an output accumulator over a node
list, keeping each node whose fingerprint is unseen. -/
def mergeLoop : List String → List Node → List Node → List String × List Node
  | seen, merged, [] => (seen, merged)
  | seen, merged, node :: rest =>
    let fp := generate_fingerprint node
    if fp ∈ seen then mergeLoop seen merged rest
    else mergeLoop (fp :: seen) (merged ++ [node]) rest

/-- HistoryManager.merge_nodes: history nodes first, then the fresh
batch, through one shared seen-fingerprint set. -/
def merge_nodes (new_nodes : MergeInput) (history_nodes : List Node) : List Node :=
  let afterHistory := mergeLoop [] [] history_nodes
  (mergeLoop afterHistory.1 afterHistory.2 new_nodes.nodes).2

/-! ## URL splitting (urllib.parse, restricted to the shapes the source feeds) -/

/-- The fields of urllib `urlparse` the source reads. -/
structure UrlParts where
  scheme : String
  netloc : String
  path : String
  query : String
  fragment : String
deriving DecidableEq

/-- Split a character list at the first `://`, when present. -/
def schemeSplitAux : List Char → Option (List Char × List Char)
  | ':' :: '/' :: '/' :: rest => some ([], rest)
  | [] => none
  | x :: xs => (schemeSplitAux xs).map (fun r => (x :: r.1, r.2))

/-- urllib `urlparse` modelled for `scheme://netloc[/path][?query][#fragment]`
inputs (the only shapes the source constructs or crawls); a string without
`://` parses as a bare path, as urlparse does for it. -/
def urlparseLite (s : String) : UrlParts :=
  let fragSplit := splitFirst s '#'
  let frag := fragSplit.2.getD ""
  let querySplit := splitFirst fragSplit.1 '?'
  let query := querySplit.2.getD ""
  match schemeSplitAux (chars querySplit.1) with
  | some (sch, rest) =>
    let netloc := rest.takeWhile (· ≠ '/')
    { scheme := lowerStr (ofChars sch), netloc := ofChars netloc,
      path := ofChars (rest.drop netloc.length), query := query, fragment := frag }
  | none =>
    { scheme := "", netloc := "", path := querySplit.1, query := query, fragment := frag }

/-- urllib `unquote_plus` step of parse_qs: `+` means space. -/
def plusToSpace (s : String) : String :=
  ofChars ((chars s).map (fun c => if c = '+' then ' ' else c))

/-- urllib `parse_qs` with its defaults: split on `&`, keep only
`key=value` segments with a non-blank value, URL-decode both sides.
The association list keeps first occurrences first, which is all the
source reads (`query.get(k, [d])[0]`). -/
def parseQs (q : String) : List (String × String) :=
  (splitAll q '&').foldr
    (fun seg acc =>
      match splitFirst seg '=' with
      | (k, some v) =>
        if v ≠ "" then (percentDecode (plusToSpace k), percentDecode (plusToSpace v)) :: acc
        else acc
      | (_, none) => acc)
    []

/-- `query.get(key, [default])[0]` of the source. -/
def qsGet (q : List (String × String)) (k dflt : String) : String :=
  (List.lookup k q).getD dflt

/-! ## Repository change tracker (src/repo_manager.py) -/

/-- One persisted entry of the repository status map. -/
structure RepoEntry where
  last_commit : String
  commit_hash : String
deriving DecidableEq

/-- The repository key: `urlparse(repo_url).path.strip('/')`. -/
def repoKeyOf (repo_url : String) : String :=
  stripChar (urlparseLite repo_url).path '/'

/-- RepoManager.should_process.  `dateutil.parser.isoparse` is an external
library; the embedding takes the instant parser as a parameter into any
linearly ordered instant type, `none` standing for the parse exceptions
the source catches.  Key present and both markers parsed: strictly-greater
comparison of the parsed instants; any parse failure: `true` (the except
branch); key absent: `true` (the final return). -/
def should_process {τ : Type} [LinearOrder τ] (isoparse : String → Option τ)
    (repo_status : List (String × RepoEntry)) (repo_url latest_commit : String) : Bool :=
  let repo_key := repoKeyOf repo_url
  match List.lookup repo_key repo_status with
  | some entry =>
    match isoparse latest_commit, isoparse entry.last_commit with
    | some latest_date, some stored_date => decide (stored_date < latest_date)
    | _, _ => true
  | none => true

/-- The argument dict of RepoManager.update_status. -/
structure CommitInfo where
  timestamp : String
  hash : String

/-- A file-system side effect, for stating what persistence does. -/
inductive FsOp where
  | write (path content : String)
  | rename (src dst : String)
deriving DecidableEq

/-- Python dict assignment `status[key] = value`: update in place when the
key exists, else append. -/
def setKey : List (String × RepoEntry) → String → RepoEntry → List (String × RepoEntry)
  | [], k, v => [(k, v)]
  | (k₀, v₀) :: rest, k, v =>
    if k₀ = k then (k, v) :: rest else (k₀, v₀) :: setKey rest k v

/-- The state file path RepoManager is constructed with. -/
def repoStatusFile : String := "output/repo_status.json"

/-- The serialized map RepoManager._save writes (`json.dump(..., indent=2)`;
the exact indentation is irrelevant to every property below, only that one
deterministic rendering of the whole map is written in a single operation). -/
def dumpRepoStatus (st : List (String × RepoEntry)) : String :=
  ofChars ('\x7b' ::
    ((renderFields (st.map (fun kv =>
        (kv.1, kv.2.last_commit ++ "|" ++ kv.2.commit_hash)))) ++ ['\x7d']))

/-- RepoManager.update_status followed by RepoManager._save: overwrite the
entry for the key unconditionally, then write the whole map directly to the
state file — the returned trace is the exact sequence of file operations
the source performs (a single direct `open(path, 'w')` + `json.dump`). -/
def update_status (repo_status : List (String × RepoEntry))
    (repo_url : String) (commit_info : CommitInfo) :
    List (String × RepoEntry) × List FsOp :=
  let repo_key := repoKeyOf repo_url
  let newStatus := setKey repo_status repo_key ⟨commit_info.timestamp, commit_info.hash⟩
  (newStatus, [FsOp.write repoStatusFile (dumpRepoStatus newStatus)])

/-! ## Flat JSON values (json.loads restricted to the flat scalar objects
the vmess payloads carry; json.dumps for the same shape) -/

/-- A scalar JSON value. -/
inductive JVal where
  | str (s : String)
  | num (n : Int)
  | jbool (b : Bool)
  | null
deriving DecidableEq

/-- JSON whitespace skip. -/
def skipWs (cs : List Char) : List Char :=
  cs.dropWhile (fun c => c = ' ' ∨ c = '\n' ∨ c = '\t' ∨ c = '\r')

/-- Scan a JSON string body after the opening quote; supports the escapes
`\"`, `\\`, `\/`. -/
def jStringAux : List Char → Option (List Char × List Char)
  | [] => none
  | '"' :: rest => some ([], rest)
  | '\\' :: c :: rest =>
    if c = '"' ∨ c = '\\' ∨ c = '/' then
      (jStringAux rest).map (fun r => (c :: r.1, r.2))
    else none
  | c :: rest => (jStringAux rest).map (fun r => (c :: r.1, r.2))

/-- Digits of a character list prefix. -/
def takeDigits (cs : List Char) : List Char × List Char :=
  (cs.takeWhile Char.isDigit, cs.dropWhile Char.isDigit)

/-- Natural value of a digit list. -/
def digitsToNat (ds : List Char) : Nat :=
  ds.foldl (fun acc d => 10 * acc + (d.toNat - '0'.toNat)) 0

/-- Parse one scalar JSON value (string, integer, boolean or null; the
vmess payloads the pipeline round-trips carry no containers or floats). -/
def parseJVal (cs : List Char) : Option (JVal × List Char) :=
  match cs with
  | '"' :: rest => (jStringAux rest).map (fun r => (JVal.str (ofChars r.1), r.2))
  | 't' :: 'r' :: 'u' :: 'e' :: rest => some (JVal.jbool true, rest)
  | 'f' :: 'a' :: 'l' :: 's' :: 'e' :: rest => some (JVal.jbool false, rest)
  | 'n' :: 'u' :: 'l' :: 'l' :: rest => some (JVal.null, rest)
  | '-' :: rest =>
    let d := takeDigits rest
    if d.1 = [] then none else some (JVal.num (-(digitsToNat d.1 : Int)), d.2)
  | c :: rest =>
    if c.isDigit then
      let d := takeDigits (c :: rest)
      some (JVal.num (digitsToNat d.1 : Int), d.2)
    else none
  | [] => none

/-- Parse the members of a flat JSON object, positioned at a key; consumes
the closing brace.  Fuel is bounded by the input length. -/
def jMembersAux : Nat → List Char → Option (List (String × JVal) × List Char)
  | 0, _ => none
  | fuel + 1, cs =>
    match skipWs cs with
    | '"' :: rest =>
      match jStringAux rest with
      | none => none
      | some (key, afterKey) =>
        match skipWs afterKey with
        | ':' :: afterColon =>
          match parseJVal (skipWs afterColon) with
          | none => none
          | some (v, afterVal) =>
            match skipWs afterVal with
            | ',' :: afterComma =>
              (jMembersAux fuel afterComma).map
                (fun r => ((ofChars key, v) :: r.1, r.2))
            | '\x7d' :: tail => some ([(ofChars key, v)], tail)
            | _ => none
        | _ => none
    | _ => none

/-- `json.loads` restricted to one flat object of scalars. -/
def jsonLoadsFlat (s : String) : Option (List (String × JVal)) :=
  match skipWs (chars s) with
  | '\x7b' :: rest =>
    match skipWs rest with
    | '\x7d' :: tail => if skipWs tail = [] then some [] else none
    | other =>
      match jMembersAux (other.length + 1) other with
      | some (ms, tail) => if skipWs tail = [] then some ms else none
      | none => none
  | _ => none

/-- Python str() of a scalar JSON value, used where the embedding stores a
dict value (always a string in the modelled node shape). -/
def jvalToStr : JVal → String
  | JVal.str s => s
  | JVal.num n => toString n
  | JVal.jbool b => if b then "True" else "False"
  | JVal.null => "None"

/-- Python truthiness of a scalar JSON value. -/
def jvalTruthy : JVal → Bool
  | JVal.str s => s ≠ ""
  | JVal.num n => n ≠ 0
  | JVal.jbool b => b
  | JVal.null => false

/-- `config.get(key, default)` over a parsed flat JSON object, stringified. -/
def jGetStr (m : List (String × JVal)) (k dflt : String) : String :=
  match List.lookup k m with
  | some v => jvalToStr v
  | none => dflt

/-! ## Line decoders (src/nodesjob.py, NodeProcessor) -/

/-- NodeProcessor._parse_vmess: `vmess://base64(json)`; requires the
`add`, `port`, `id` members. -/
def parse_vmess (line : String) : Option Node :=
  match b64DecodeToText (percentDecode (line.drop 8)) with
  | none => none
  | some decoded =>
    match jsonLoadsFlat decoded with
    | none => none
    | some config =>
      if (List.lookup "add" config).isSome ∧ (List.lookup "port" config).isSome ∧
          (List.lookup "id" config).isSome then
        some [("type", "vmess"),
              ("name", jGetStr config "ps" "未命名节点"),
              ("server", jGetStr config "add" ""),
              ("port", jGetStr config "port" ""),
              ("uuid", jGetStr config "id" ""),
              ("alterId", jGetStr config "aid" "0"),
              ("network", jGetStr config "net" "tcp"),
              ("tls", if jvalTruthy ((List.lookup "tls" config).getD JVal.null)
                      then "tls" else "")]
      else none

/-- The `-_` → `+/` translation of `base64.urlsafe_b64decode`. -/
def urlsafeTranslate (s : String) : String :=
  ofChars ((chars s).map (fun c => if c = '-' then '+' else if c = '_' then '/' else c))

/-- NodeProcessor._parse_ss: `ss://base64(method:password@host:port)#name`. -/
def parse_ss (line : String) : Option Node :=
  let parts := splitFirst (line.drop 5) '#'
  let encoded_part := parts.1
  let name := match parts.2 with
    | some t => percentDecode t
    | none => ""
  let decodedOpt :=
    if containsChar encoded_part '_' ∨ containsChar encoded_part '-' then
      b64DecodeToText (urlsafeTranslate encoded_part ++ "==")
    else
      b64DecodeToText (percentDecode encoded_part)
  match decodedOpt with
  | none => none
  | some decoded =>
    if ¬ containsChar decoded '@' then none
    else
      let authServer := splitFirst decoded '@'
      let server := (authServer.2).getD ""
      if ¬ containsChar authServer.1 ':' then none
      else
        let mp := splitFirst authServer.1 ':'
        if ¬ containsChar server ':' then none
        else
          let hp := splitFirst server ':'
          some [("type", "ss"), ("name", name), ("server", hp.1),
                ("port", (hp.2).getD ""), ("password", (mp.2).getD ""),
                ("cipher", mp.1)]

/-- NodeProcessor._parse_trojan: `trojan://password@host:port?params#name`.
The source dict literal writes the key `type` twice — first as the literal
`trojan`, then as the transport type from the query (default `tcp`); Python
keeps the position of the first write and the value of the last, so the
returned descriptor's kind is the transport value, never `trojan`. -/
def parse_trojan (line : String) : Option Node :=
  let parsed := urlparseLite line
  if ¬ containsChar parsed.netloc '@' then none
  else
    let pwHost := splitFirst parsed.netloc '@'
    let hostport := (pwHost.2).getD ""
    if ¬ containsChar hostport ':' then none
    else
      let hp := splitFirst hostport ':'
      let query := parseQs parsed.query
      some [("type", qsGet query "type" "tcp"),
            ("name", if parsed.fragment ≠ "" then percentDecode parsed.fragment
                     else "未命名节点"),
            ("server", hp.1), ("port", (hp.2).getD ""),
            ("password", pwHost.1),
            ("sni", qsGet query "sni" ""),
            ("security", qsGet query "security" "tls")]

/-- NodeProcessor._parse_vless: `vless://uuid@host:port?params#name`. -/
def parse_vless (line : String) : Option Node :=
  let parsed := urlparseLite line
  if ¬ containsChar parsed.netloc '@' then none
  else
    let uuidHost := splitFirst parsed.netloc '@'
    let hostport := (uuidHost.2).getD ""
    if ¬ containsChar hostport ':' then none
    else
      let hp := splitFirst hostport ':'
      let query := parseQs parsed.query
      some [("type", "vless"),
            ("name", if parsed.fragment ≠ "" then percentDecode parsed.fragment
                     else "未命名节点"),
            ("server", hp.1), ("port", (hp.2).getD ""),
            ("uuid", uuidHost.1),
            ("security", qsGet query "security" "none"),
            ("sni", qsGet query "sni" ""),
            ("flow", qsGet query "flow" ""),
            ("network", qsGet query "type" "tcp")]

/-- NodeProcessor._parse_hysteria2: the tuple unpacking
`server, port = netloc.split(':')` demands exactly one colon. -/
def parse_hysteria2 (line : String) : Option Node :=
  let parsed := urlparseLite line
  match splitAll parsed.netloc ':' with
  | [server, port] =>
    let query := parseQs parsed.query
    some [("type", "hysteria2"),
          ("name", if parsed.fragment ≠ "" then percentDecode parsed.fragment
                   else "未命名节点"),
          ("server", server), ("port", port),
          ("protocol", qsGet query "protocol" "udp"),
          ("auth", qsGet query "auth" ""),
          ("obfs", qsGet query "obfs" ""),
          ("peer", qsGet query "peer" "")]
  | _ => none

/-- NodeProcessor._parse_tcp: `tcp://server:port#name`. -/
def parse_tcp (line : String) : Option Node :=
  let parsed := urlparseLite line
  match splitAll parsed.netloc ':' with
  | [server, port] =>
    some [("type", "tcp"),
          ("name", if parsed.fragment ≠ "" then percentDecode parsed.fragment
                   else "未命名节点"),
          ("server", server), ("port", port)]
  | _ => none

/-- NodeProcessor._parse_ws: `ws://server:port?host=h&path=p#name`. -/
def parse_ws (line : String) : Option Node :=
  let parsed := urlparseLite line
  match splitAll parsed.netloc ':' with
  | [server, port] =>
    let query := parseQs parsed.query
    some [("type", "ws"),
          ("name", if parsed.fragment ≠ "" then percentDecode parsed.fragment
                   else "未命名节点"),
          ("server", server), ("port", port),
          ("host", qsGet query "host" ""),
          ("path", qsGet query "path" "/")]
  | _ => none

/-- Split a character list at the first occurrence of a two-character
separator (Python `s.split(sep, 1)` for `sep = "/?"`). -/
def splitSubstr2Aux (c₁ c₂ : Char) : List Char → Option (List Char × List Char)
  | [] => none
  | x :: xs =>
    match xs with
    | [] => none
    | y :: rest =>
      if x = c₁ ∧ y = c₂ then some ([], rest)
      else (splitSubstr2Aux c₁ c₂ (y :: rest)).map (fun r => (x :: r.1, r.2))

/-- NodeProcessor._parse_ssr:
`ssr://base64(host:port:protocol:method:obfs:password64/?params)`. -/
def parse_ssr (line : String) : Option Node :=
  match b64DecodeToText (line.drop 6) with
  | none => none
  | some decoded =>
    match splitSubstr2Aux '/' '?' (chars decoded) with
    | none => none
    | some (serverInfo, params) =>
      match splitAll (ofChars serverInfo) ':' with
      | [server, port, protocol, method, obfs, password64] =>
        match b64DecodeToText password64 with
        | none => none
        | some password =>
          let query := parseQs (ofChars params)
          let remarksOpt :=
            if (List.lookup "remarks" query).isSome then
              b64DecodeToText (qsGet query "remarks" "")
            else some "未命名节点"
          let obfsParamOpt :=
            if (List.lookup "obfsparam" query).isSome then
              b64DecodeToText (qsGet query "obfsparam" "")
            else some ""
          let protoParamOpt :=
            if (List.lookup "protoparam" query).isSome then
              b64DecodeToText (qsGet query "protoparam" "")
            else some ""
          let groupOpt :=
            if (List.lookup "group" query).isSome then
              b64DecodeToText (qsGet query "group" "")
            else some ""
          match remarksOpt, obfsParamOpt, protoParamOpt, groupOpt with
          | some remarks, some obfsParam, some protoParam, some group =>
            some [("type", "ssr"), ("name", remarks),
                  ("server", server), ("port", port),
                  ("protocol", protocol), ("cipher", method), ("obfs", obfs),
                  ("password", password),
                  ("obfs_param", obfsParam), ("protocol_param", protoParam),
                  ("group", group)]
          | _, _, _, _ => none
      | _ => none

/-- NodeProcessor._parse_grpc: `grpc://uuid@server:port?params#name`. -/
def parse_grpc (line : String) : Option Node :=
  let parsed := urlparseLite line
  match splitAll parsed.netloc '@' with
  | [uuid, server_port] =>
    match splitAll server_port ':' with
    | [server, port] =>
      let query := parseQs parsed.query
      some [("type", "grpc"),
            ("name", if parsed.fragment ≠ "" then percentDecode parsed.fragment
                     else "未命名节点"),
            ("server", server), ("port", port), ("uuid", uuid),
            ("serviceName", qsGet query "serviceName" ""),
            ("security", qsGet query "security" "none")]
    | _ => none
  | _ => none

/-- NodeProcessor._parse_httpupgrade: `httpupgrade://server:port?params#name`. -/
def parse_httpupgrade (line : String) : Option Node :=
  let parsed := urlparseLite line
  match splitAll parsed.netloc ':' with
  | [server, port] =>
    let query := parseQs parsed.query
    some [("type", "httpupgrade"),
          ("name", if parsed.fragment ≠ "" then percentDecode parsed.fragment
                   else "未命名节点"),
          ("server", server), ("port", port),
          ("host", qsGet query "host" ""),
          ("path", qsGet query "path" "/")]
  | _ => none

/-- NodeProcessor._parse_single_line: strip, dispatch on the scheme
prefix; any decoder exception is swallowed here (none). -/
def parse_single_line (line₀ : String) : Option Node :=
  let line := pyStrip line₀
  if line = "" then none
  else if startsWithStr line "vmess://" then parse_vmess line
  else if startsWithStr line "ss://" then parse_ss line
  else if startsWithStr line "trojan://" then parse_trojan line
  else if startsWithStr line "vless://" then parse_vless line
  else if startsWithStr line "hysteria2://" then parse_hysteria2 line
  else if startsWithStr line "tcp://" then parse_tcp line
  else if startsWithStr line "ws://" then parse_ws line
  else if startsWithStr line "ssr://" then parse_ssr line
  else if startsWithStr line "grpc://" then parse_grpc line
  else if startsWithStr line "httpupgrade://" then parse_httpupgrade line
  else none

/-! ## Content cascade (src/nodesjob.py, NodeProcessor + report plumbing) -/

/-- The result shape `{'success': bool, 'data': [...]}` of the content
stages. -/
structure StageResult where
  success : Bool
  data : List Node
deriving DecidableEq

/-- NodeProcessor._is_base64: the whole-content regex
`^[A-Za-z0-9+/]*={0,2}$` plus a trial decode. -/
def is_base64 (content : String) : Bool :=
  let rest := (chars content).dropWhile b64AlphaChar
  (rest.all (· = '=') ∧ rest.length ≤ 2) ∧ (b64DecodePython content).isSome

/-- NodeProcessor._parse_base64_config together with the number of
successful base64 unwrapping steps it performs (second component; the
source only returns the first component).  Beyond depth 2 the input is
returned untouched, with no decoding. -/
def parse_base64_config_core (encoded_content : String) (depth : Nat) : String × Nat :=
  if h : depth > 2 then (encoded_content, 0)
  else if is_base64 encoded_content then
    let stripped := ofChars (((chars encoded_content).reverse.dropWhile (· = '=')).reverse)
    let missing := stripped.length % 4
    let padded :=
      if missing ≠ 0 then stripped ++ ofChars (List.replicate (4 - missing) '=')
      else stripped
    match b64DecodeToText padded with
    | none => (encoded_content, 0)
    | some decoded =>
      if is_base64 decoded then
        let r := parse_base64_config_core decoded (depth + 1)
        (r.1, r.2 + 1)
      else (decoded, 1)
  else (encoded_content, 0)
termination_by 3 - depth
decreasing_by simp only [gt_iff_lt, not_lt] at h; omega

/-- NodeProcessor._parse_base64_config (the returned content). -/
def parse_base64_config (encoded_content : String) (depth : Nat) : String :=
  (parse_base64_config_core encoded_content depth).1

/-- How many base64 unwrapping steps the cascade performs on an input. -/
def b64UnwrapCount (encoded_content : String) (depth : Nat) : Nat :=
  (parse_base64_config_core encoded_content depth).2

/-- NodeProcessor._parse_txt_content: strip each line, skip blanks, keep
every line a scheme decoder accepts; success iff any node was parsed. -/
def parse_txt_content (content : String) : StageResult :=
  let nodes := (splitLines content).filterMap
    (fun line =>
      let l := pyStrip line
      if l = "" then none else parse_single_line l)
  ⟨¬ nodes.isEmpty, nodes⟩

/-- One parsed-node record of the report (`{'source_type','url','data'}`). -/
structure NodeEntry where
  source_type : String
  url : String
  data : Node
deriving DecidableEq

/-- One failure record of the report (`{'url','error'}`). -/
structure Failure where
  url : String
  error : String
deriving DecidableEq

/-- The report dict NodeProcessor.parse_node_links builds. -/
structure ParseReport where
  total_links : Nat
  success_count : Nat
  failure_count : Nat
  total_nodes : Nat
  nodes : List NodeEntry
  failures : List Failure
deriving DecidableEq

/-- One element of a structured-stage `proxies` list as Python holds it.
The four-required-keys containment check of _parse_clash_config_content
also admits values that are not string-valued mappings: a string or list
element containing the four key names as members/substrings, or a mapping
whose `type` value is not a string (e.g. `type: 5`).  On such an element
tools.NodeUtils.generate_fingerprint raises (`.get` on a non-dict, or
`.lower()` on a non-string), so the model splits the element type into
well-formed descriptors and fingerprint-raising values. -/
inductive ProxyItem where
  | node (n : Node)
  | raising
deriving DecidableEq

/-- tools.NodeUtils.add_nodes: append each node whose fingerprint is not
yet in the seen set, wrapped with its source type and URL.  The boolean
result records whether generate_fingerprint raised partway: the loop then
stops at the offending element, but the nodes already appended and the
fingerprints already inserted persist (the source mutates the report and
the seen set in place before the exception escapes). -/
def add_nodes (nodes : List NodeEntry) (seen : List String)
    (newNodes : List ProxyItem) (url source_type : String) :
    (List NodeEntry × List String) × Bool :=
  match newNodes with
  | [] => ((nodes, seen), false)
  | ProxyItem.raising :: _ => ((nodes, seen), true)
  | ProxyItem.node node :: rest =>
    let fp := generate_fingerprint node
    if fp ∈ seen then add_nodes nodes seen rest url source_type
    else add_nodes (nodes ++ [⟨source_type, url, node⟩]) (fp :: seen) rest url source_type

/-- The per-file classification cascade of parse_node_links after content
fetch: base64 unwrap, then the text stage, then the structured (clash)
stage, then the structured stage once more (the source's third attempt
calls _parse_clash_config_content again).  `clashStage` stands for
NodeProcessor._parse_clash_config_content, whose yaml.safe_load call is an
external library; it is a parameter of the embedding.  This descriptor-
level view (every stage element a well-formed Node) is what the stage-
ordering property is about; classifyContentRaw below is the same cascade
at the representation the report plumbing needs. -/
def classifyContent (clashStage : String → StageResult) (content₀ : String) :
    Option (List Node × String) :=
  let content := parse_base64_config content₀ 0
  let txt := parse_txt_content content
  if txt.success then some (txt.data, "text")
  else
    let clash := clashStage content
    if clash.success then some (clash.data, "clash")
    else
      let jsonAttempt := clashStage content
      if jsonAttempt.success then some (jsonAttempt.data, "clash")
      else none

/-- The structured-stage result at Python fidelity: its elements may be
fingerprint-raising values that the four-key check admitted. -/
structure RawStage where
  success : Bool
  data : List ProxyItem
deriving DecidableEq

/-- The cascade of parse_node_links over raw structured-stage data.  The
text stage's descriptors are always well-formed (every line decoder builds
a string-valued dict), so they enter as ProxyItem.node. -/
def classifyContentRaw (clashStage : String → RawStage) (content₀ : String) :
    Option (List ProxyItem × String) :=
  let content := parse_base64_config content₀ 0
  let txt := parse_txt_content content
  if txt.success then some (txt.data.map ProxyItem.node, "text")
  else
    let clash := clashStage content
    if clash.success then some (clash.data, "clash")
    else
      let jsonAttempt := clashStage content
      if jsonAttempt.success then some (jsonAttempt.data, "clash")
      else none

/-- The loop body of NodeProcessor.parse_node_links for one link: a fetch
exception or an unrecognized format records one failure; a successful
stage increments success_count BEFORE add_nodes runs, so when add_nodes
raises on a fingerprint-raising element the per-link except ALSO
increments failure_count and appends a failure for the same link — the
link is then counted in both counters, with the partially added nodes and
seen set kept. -/
def processLink (clashStage : String → RawStage) (fetch : String → Option String)
    (state : ParseReport × List String) (url : String) : ParseReport × List String :=
  let report := state.1
  let seen := state.2
  match fetch url with
  | none =>
    ({ report with failure_count := report.failure_count + 1,
                   failures := report.failures ++ [⟨url, "处理异常"⟩] }, seen)
  | some content =>
    match classifyContentRaw clashStage content with
    | some (data, source_type) =>
      let r := add_nodes report.nodes seen data url source_type
      if r.2 then
        ({ report with success_count := report.success_count + 1,
                       failure_count := report.failure_count + 1,
                       nodes := r.1.1,
                       failures := report.failures ++ [⟨url, "处理异常"⟩] }, r.1.2)
      else
        ({ report with success_count := report.success_count + 1, nodes := r.1.1 }, r.1.2)
    | none =>
      ({ report with failure_count := report.failure_count + 1,
                     failures := report.failures ++ [⟨url, "无法识别配置格式"⟩] }, seen)

/-- NodeProcessor.parse_node_links: fold the links through processLink and
finish by setting total_nodes to the length of the collected node list.
`fetch` stands for `requests.get(url).text`, `none` meaning the exception
path the source catches per link. -/
def parse_node_links (clashStage : String → RawStage)
    (fetch : String → Option String) (links : List String) : ParseReport :=
  let start : ParseReport := ⟨links.length, 0, 0, 0, [], []⟩
  let final := links.foldl (processLink clashStage fetch) (start, [])
  { final.1 with total_nodes := final.1.nodes.length }

/-! ## URI generation (src/nodesjob.py, FileGenerator._generate_uri) -/

/-- `json.dumps` for a flat string-valued dict in insertion order (the
vmess payload of _generate_uri; the embedding stores scalars as strings). -/
def jsonDumpsOrdered (m : List (String × String)) : String :=
  ofChars ('\x7b' :: (renderFields m ++ ['\x7d']))

/-- `'&'.join(query_params)`. -/
def joinAmp (parts : List String) : String := String.intercalate "&" parts

/-- FileGenerator._generate_uri: rebuild the subscription URI for a
descriptor; unknown kinds and encode exceptions return None. -/
def generate_uri (node_data : Node) : Option String :=
  let node_type := nodeGet node_data "type" ""
  if node_type = "ss" then
    let method := nodeGet node_data "cipher" ""
    let password := nodeGet node_data "password" ""
    let server := nodeGet node_data "server" ""
    let port := nodeGet node_data "port" ""
    let name := percentEncode (nodeGet node_data "name" "")
    (b64EncodeText (method ++ ":" ++ password ++ "@" ++ server ++ ":" ++ port)).map
      (fun encoded => "ss://" ++ encoded ++ "#" ++ name)
  else if node_type = "vmess" then
    let payload := jsonDumpsOrdered
      [("v", "2"), ("ps", nodeGet node_data "name" ""),
       ("add", nodeGet node_data "server" ""), ("port", nodeGet node_data "port" ""),
       ("id", nodeGet node_data "uuid" ""), ("aid", nodeGet node_data "alterId" "0"),
       ("scy", "auto"), ("net", nodeGet node_data "network" "tcp"),
       ("type", "none"),
       ("tls", if nodeGet node_data "tls" "" ≠ "" then "tls" else "")]
    (b64EncodeText payload).map (fun encoded => "vmess://" ++ encoded)
  else if node_type = "trojan" then
    let password := nodeGet node_data "password" ""
    let server := nodeGet node_data "server" ""
    let port := nodeGet node_data "port" ""
    let name := percentEncode (nodeGet node_data "name" "")
    let sni := nodeGet node_data "sni" ""
    let query := if sni ≠ "" then "security=tls&sni=" ++ sni else "security=tls"
    some ("trojan://" ++ password ++ "@" ++ server ++ ":" ++ port ++ "?" ++ query ++ "#" ++ name)
  else if node_type = "vless" then
    let uuid := nodeGet node_data "uuid" ""
    let server := nodeGet node_data "server" ""
    let port := nodeGet node_data "port" ""
    let name := percentEncode (nodeGet node_data "name" "")
    let security := nodeGet node_data "security" "none"
    let sni := nodeGet node_data "sni" ""
    let flow := nodeGet node_data "flow" ""
    let network := nodeGet node_data "network" "tcp"
    let query := joinAmp
      ((if security ≠ "" then ["security=" ++ security] else []) ++
       (if sni ≠ "" then ["sni=" ++ sni] else []) ++
       (if flow ≠ "" then ["flow=" ++ flow] else []) ++
       (if network ≠ "" then ["type=" ++ network] else []) ++
       (if nodeGet node_data "host" "" ≠ "" then ["host=" ++ nodeGet node_data "host" ""] else []) ++
       (if nodeGet node_data "path" "/" ≠ "" then ["path=" ++ nodeGet node_data "path" "/"] else []))
    some ("vless://" ++ uuid ++ "@" ++ server ++ ":" ++ port ++ "?" ++ query ++ "#" ++ name)
  else if node_type = "hysteria2" then
    let server := nodeGet node_data "server" ""
    let port := nodeGet node_data "port" ""
    let name := percentEncode (nodeGet node_data "name" "")
    let protocol := nodeGet node_data "protocol" "udp"
    let auth := nodeGet node_data "auth" ""
    let obfs := nodeGet node_data "obfs" ""
    let peer := nodeGet node_data "peer" ""
    let query := joinAmp
      ((if protocol ≠ "" then ["protocol=" ++ protocol] else []) ++
       (if auth ≠ "" then ["auth=" ++ auth] else []) ++
       (if obfs ≠ "" then ["obfs=" ++ obfs] else []) ++
       (if peer ≠ "" then ["peer=" ++ peer] else []))
    some ("hysteria2://" ++ server ++ ":" ++ port ++ "?" ++ query ++ "#" ++ name)
  else if node_type = "tcp" then
    some ("tcp://" ++ nodeGet node_data "server" "" ++ ":" ++ nodeGet node_data "port" "" ++
      "#" ++ percentEncode (nodeGet node_data "name" ""))
  else if node_type = "ws" then
    let query := joinAmp
      ((if nodeGet node_data "host" "" ≠ "" then ["host=" ++ nodeGet node_data "host" ""] else []) ++
       (if nodeGet node_data "path" "/" ≠ "" then ["path=" ++ nodeGet node_data "path" "/"] else []))
    some ("ws://" ++ nodeGet node_data "server" "" ++ ":" ++ nodeGet node_data "port" "" ++
      "?" ++ query ++ "#" ++ percentEncode (nodeGet node_data "name" ""))
  else if node_type = "ssr" then
    match b64EncodeText (nodeGet node_data "password" "") with
    | none => none
    | some password64 =>
      let obfsParam := nodeGet node_data "obfs_param" ""
      let protoParam := nodeGet node_data "protocol_param" ""
      match b64EncodeText obfsParam, b64EncodeText protoParam,
          b64EncodeText (nodeGet node_data "name" ""),
          b64EncodeText (nodeGet node_data "group" "") with
      | some ob64, some pr64, some remarks64, some group64 =>
        let params := joinAmp
          ((if obfsParam ≠ "" then ["obfsparam=" ++ ob64] else []) ++
           (if protoParam ≠ "" then ["protoparam=" ++ pr64] else []) ++
           ["remarks=" ++ remarks64, "group=" ++ group64])
        let ssrUri := nodeGet node_data "server" "" ++ ":" ++ nodeGet node_data "port" "" ++
          ":" ++ nodeGet node_data "protocol" "origin" ++ ":" ++ nodeGet node_data "cipher" "aes-256-cfb" ++
          ":" ++ nodeGet node_data "obfs" "plain" ++ ":" ++ password64 ++ "/?" ++ params
        (b64EncodeText ssrUri).map (fun encoded => "ssr://" ++ encoded)
      | _, _, _, _ => none
  else if node_type = "grpc" then
    let query := joinAmp
      ((if nodeGet node_data "serviceName" "" ≠ "" then
          ["serviceName=" ++ nodeGet node_data "serviceName" ""] else []) ++
       (if nodeGet node_data "security" "none" ≠ "" then
          ["security=" ++ nodeGet node_data "security" "none"] else []))
    some ("grpc://" ++ nodeGet node_data "uuid" "" ++ "@" ++ nodeGet node_data "server" "" ++
      ":" ++ nodeGet node_data "port" "" ++ "?" ++ query ++ "#" ++
      percentEncode (nodeGet node_data "name" ""))
  else if node_type = "httpupgrade" then
    let query := joinAmp
      ((if nodeGet node_data "host" "" ≠ "" then ["host=" ++ nodeGet node_data "host" ""] else []) ++
       (if nodeGet node_data "path" "/" ≠ "" then ["path=" ++ nodeGet node_data "path" "/"] else []))
    some ("httpupgrade://" ++ nodeGet node_data "server" "" ++ ":" ++ nodeGet node_data "port" "" ++
      "?" ++ query ++ "#" ++ percentEncode (nodeGet node_data "name" ""))
  else none

/-! ## Repository content crawler (src/crawler.py, GitHubCrawler) -/

/-- Crawler constants from the top of src/crawler.py. -/
def MAX_RECURSION_DEPTH : Nat := 1

/-- Directory page size (`PER_PAGE`). -/
def PER_PAGE : Nat := 100

/-- File size ceiling in bytes (`MAX_FILE_SIZE = 1024 * 512`). -/
def MAX_FILE_SIZE : Nat := 1024 * 512

/-- One directory listing item as the contents API returns it; optional
fields model the `key in item` checks of the source. -/
structure FsItem where
  type : Option String
  name : Option String
  url : Option String
  download_url : Option String
  size : Option Nat

/-- One emitted candidate file reference. -/
structure FoundFile where
  name : String
  url : String
  download_url : String
deriving DecidableEq

/-- Is the needle a contiguous substring of the haystack
(`re.search` of a literal alternative). -/
def isSubstr : List Char → List Char → Bool
  | n, [] => n.isEmpty
  | n, h :: t => n.isPrefixOf (h :: t) || isSubstr n t

/-- The filename keyword pattern `v2ray|clash|node|proxy|sub|vless|vmess`
(searched case-insensitively; the source lower-cases the name first). -/
def keywordMatch (n : String) : Bool :=
  ["v2ray", "clash", "node", "proxy", "sub", "vless", "vmess"].any
    (fun kw => isSubstr (chars kw) (chars n))

/-- The record _search_contents appends for an accepted file. -/
def mkFoundFile (item : FsItem) : FoundFile :=
  ⟨item.name.getD "", item.url.getD "", item.download_url.getD ""⟩

/-!
GitHubCrawler._search_contents / _process_item.  The directory
environment `env` maps a contents-API path to its full listing; the
paginated while-loop reads it in PER_PAGE chunks.  The second result
component counts the page fetches issued (safe_request calls), which is
what "no fetch beyond the ceiling" is about.  The extra `gas` argument
only drives Lean's termination: recursion into subdirectories is stopped
by the source's depth guard after at most MAX_RECURSION_DEPTH + 1 levels,
so the top-level wrapper's gas is never exhausted.
-/
mutual

/-- The entry of _search_contents: the depth guard, then the page loop. -/
def searchContentsGas (env : String → List FsItem) :
    Nat → String → Nat → List FoundFile × Nat
  | 0, _, _ => ([], 0)
  | gas + 1, path, depth =>
    if depth > MAX_RECURSION_DEPTH then ([], 0)
    else pageLoopGas env gas (env path) depth
termination_by g _ _ => (g, 0, 0)

/-- The paginated while-loop of _search_contents over the not-yet-listed
tail of the directory: each iteration is one page fetch; stop on an empty
or short page. -/
def pageLoopGas (env : String → List FsItem) (gas : Nat)
    (remaining : List FsItem) (depth : Nat) : List FoundFile × Nat :=
  if (remaining.take PER_PAGE).isEmpty then ([], 1)
  else
    let processed := processPageGas env gas (remaining.take PER_PAGE) depth
    if (remaining.take PER_PAGE).length < PER_PAGE then (processed.1, 1 + processed.2)
    else
      let rest := pageLoopGas env gas (remaining.drop PER_PAGE) depth
      (processed.1 ++ rest.1, 1 + processed.2 + rest.2)
termination_by (gas, 2, remaining.length)
decreasing_by
· exact Prod.Lex.right _ (Prod.Lex.left _ _ (by omega))
· refine Prod.Lex.right _ (Prod.Lex.right _ ?_)
  have hp : 0 < PER_PAGE := by norm_num [PER_PAGE]
  simp only [List.length_take, not_lt, Nat.le_min] at *
  simp only [List.length_drop]
  omega

/-- The for-loop over one page: emit the accepted files in page order and
accumulate subdirectory fetch counts. -/
def processPageGas (env : String → List FsItem) (gas : Nat) :
    List FsItem → Nat → List FoundFile × Nat
  | [], _ => ([], 0)
  | item :: more, depth =>
    let r := processItemGas env gas item depth
    let rest := processPageGas env gas more depth
    ((if r.1 then [mkFoundFile item] else []) ++ rest.1, r.2 + rest.2)
termination_by items _ => (gas, 1, items.length + 1)

/-- GitHubCrawler._process_item: the per-entry filter chain; a `dir` entry
recurses one level deeper (its result is discarded by the source — only
its fetches happen) and is itself never emitted. -/
def processItemGas (env : String → List FsItem) (gas : Nat)
    (item : FsItem) (depth : Nat) : Bool × Nat :=
  match item.type, item.name, item.url, item.download_url with
  | some t, some n₀, some _, some d =>
    let n := lowerStr n₀
    if startsWithStr n "." ∨ startsWithStr n "_" then (false, 0)
    else if item.size.getD 0 > MAX_FILE_SIZE then (false, 0)
    else if t = "dir" then (false, (searchContentsGas env gas (item.url.getD "") (depth + 1)).2)
    else if ¬ (endsWithStr n ".yaml" ∨ endsWithStr n ".yml" ∨ endsWithStr n ".txt") then (false, 0)
    else if ¬ keywordMatch n then (false, 0)
    else if ¬ startsWithStr (urlparseLite d).scheme "http" then (false, 0)
    else (true, 0)
  | _, _, _, _ => (false, 0)
termination_by (gas, 0, 1)

end

/-- GitHubCrawler._search_contents at its source signature: the gas bound
MAX_RECURSION_DEPTH + 2 covers every level the depth guard permits. -/
def search_contents (env : String → List FsItem) (path : String) (depth : Nat) :
    List FoundFile × Nat :=
  searchContentsGas env (MAX_RECURSION_DEPTH + 2) path depth

/-! ## Reference shapes and instances used by the statements below -/

/-- The spec's atomic-persistence discipline on the file-operation trace:
write a temporary file, then rename it over the target. -/
def atomicTempReplace (trace : List FsOp) (target : String) : Prop :=
  ∃ tmp content, tmp ≠ target ∧ trace = [FsOp.write tmp content, FsOp.rename tmp target]

/-- The nodes a seen-set-threaded pass keeps out of a list, starting from
a given set of already-seen fingerprints (the reference shape the merge
loop is proved to produce). -/
def keptFrom (seen : List String) : List Node → List Node
  | [] => []
  | n :: ns =>
    if generate_fingerprint n ∈ seen then keptFrom seen ns
    else n :: keptFrom (generate_fingerprint n :: seen) ns

/-- A string free of the two JSON-escaped characters, so its serialized
form is the string itself. -/
def noJsonSpecial (s : String) : Prop := '"' ∉ chars s ∧ '\\' ∉ chars s

/-- noJsonSpecial is decidable (used by concrete witnesses). -/
instance (s : String) : Decidable (noJsonSpecial s) := by
  unfold noJsonSpecial
  infer_instance

/-- A document on which both cascade stages succeed with different
descriptors: as line-delimited text its second line decodes as a trojan
URI; as a structured mapping (yaml.safe_load) the trojan line is hidden
inside the block scalar under `x` while the `proxies` entry carries the
four required keys, so the structured stage yields the tcp proxy. -/
def c3Content : String :=
  "x: |\n  trojan://p@h:1#n\nproxies: [\x7bname: a, type: tcp, server: h, port: 1\x7d]"

/-- The structured (clash) stage on c3Content, mirroring what
_parse_clash_config_content computes with yaml.safe_load on it: success
with the single valid proxies element (and failure on anything else). -/
def c3ClashStage : String → StageResult := fun s =>
  if s = c3Content then
    ⟨true, [[("name", "a"), ("type", "tcp"), ("server", "h"), ("port", "1")]]⟩
  else ⟨false, []⟩

/-- A fetched document that reaches the double-count path: no line has a
URI scheme (the text stage fails), and as a structured mapping its single
`proxies` element carries the four required keys but a non-string `type`
value, which the four-key containment check admits. -/
def c10Content : String := "proxies: [\x7bname: a, type: 5, server: s, port: 1\x7d]"

/-- The structured (clash) stage on c10Content, mirroring
_parse_clash_config_content with yaml.safe_load on it: the element
\x7bname: a, type: 5, server: s, port: 1\x7d passes the
`all(key in proxy ...)` check and is returned, and
generate_fingerprint raises on it (`(5).lower()` is an AttributeError),
so it enters the model as ProxyItem.raising. -/
def c10ClashStage : String → RawStage := fun s =>
  if s = c10Content then ⟨true, [ProxyItem.raising]⟩ else ⟨false, []⟩

/-! ## Theorems -/

/-- C9: for every directory environment, _search_contents invoked with a
depth greater than the recursion ceiling returns an empty list and issues
no fetch: branches beyond the ceiling are never descended. -/
theorem C9_depth_ceiling (env : String → List FsItem) (path : String) (depth : Nat)
    (h : depth > MAX_RECURSION_DEPTH) :
    search_contents env path depth = ([], 0) := by
  show searchContentsGas env (MAX_RECURSION_DEPTH + 2) path depth = ([], 0)
  rw [searchContentsGas]
  simp [h]

/-- Witness for C9 at a concrete over-deep call: even over an environment
whose every directory holds a further subdirectory (an unboundedly deep
tree), a call at depth 2 > ceiling 1 performs nothing. -/
theorem C9_depth_ceiling_witness :
    2 > MAX_RECURSION_DEPTH ∧
      search_contents
        (fun p => [⟨some "dir", some "d", some (p ++ "/d"), some "x", none⟩])
        "root" 2 = ([], 0) :=
  ⟨by decide,
   C9_depth_ceiling (fun p => [⟨some "dir", some "d", some (p ++ "/d"), some "x", none⟩])
     "root" 2 (by decide)⟩

/-- Beyond the ceiling the cascade returns its input and performs no
decode step (the depth guard of _parse_base64_config). -/
lemma parse_base64_config_core_stop (s : String) (d : Nat) (h : 2 < d) :
    parse_base64_config_core s d = (s, 0) := by
  rw [parse_base64_config_core]
  simp [h]

/-- The number of unwrapping steps is bounded by the remaining budget
3 - depth, by induction on that budget. -/
lemma b64UnwrapCount_le_budget (k : Nat) :
    ∀ d s, 3 - d ≤ k → b64UnwrapCount s d ≤ 3 - d := by
  induction k with
  | zero =>
    intro d s h
    have hd : 2 < d := by omega
    simp [b64UnwrapCount, parse_base64_config_core_stop s d hd]
  | succ k ih =>
    intro d s h
    by_cases hd : 2 < d
    · simp [b64UnwrapCount, parse_base64_config_core_stop s d hd]
    · have hd3 : ¬ d > 2 := hd
      rw [b64UnwrapCount, parse_base64_config_core]
      rw [dif_neg hd3]
      dsimp only
      split
      · split
        next => simp
        next decoded hdec =>
          split
          next hb =>
            have hrec := ih (d + 1) decoded (by omega)
            rw [b64UnwrapCount] at hrec
            simp only
            omega
          next hb =>
            simp only
            omega
      · simp

/-- C7: the recursive Base64 stage respects its fixed nesting ceiling: a
call whose depth parameter exceeds the guard value 2 returns its input
unchanged and performs no decode at all, and from any starting depth the
number of unwrapping steps performed is at most the remaining budget
3 - depth (so at most 3 from the cascade's entry depth 0, and the depth
parameter of any recursive call stays at most 3). -/
theorem C7_base64_ceiling :
    (∀ s d, 2 < d → parse_base64_config s d = s ∧ b64UnwrapCount s d = 0) ∧
    (∀ s d, b64UnwrapCount s d ≤ 3 - d) := by
  constructor
  · intro s d hd
    constructor
    · show (parse_base64_config_core s d).1 = s
      rw [parse_base64_config_core_stop s d hd]
    · show (parse_base64_config_core s d).2 = 0
      rw [parse_base64_config_core_stop s d hd]
  · intro s d
    exact b64UnwrapCount_le_budget (3 - d) d s (Nat.le_refl _)

/-- Witness for C7 at concrete inputs: a call past the ceiling (depth 3)
leaves even decodable content untouched, and a triply nested Base64
payload started at depth 0 stays within the 3-step budget. -/
theorem C7_base64_ceiling_witness :
    (2 < 3 ∧ parse_base64_config "WVdKag==" 3 = "WVdKag==" ∧
      b64UnwrapCount "WVdKag==" 3 = 0) ∧
    b64UnwrapCount "V1ZkS2FnPT0=" 0 ≤ 3 - 0 := by
  refine ⟨⟨by decide, ?_, ?_⟩, ?_⟩
  · exact (C7_base64_ceiling.1 "WVdKag==" 3 (by decide)).1
  · exact (C7_base64_ceiling.1 "WVdKag==" 3 (by decide)).2
  · exact C7_base64_ceiling.2 "V1ZkS2FnPT0=" 0

/-- C5: should_process returns true when the repository key is absent;
when present it compares the two markers as parsed instants (any instant
type, any parser — never as strings), returning true exactly when the
candidate instant is strictly greater; and when either marker fails to
parse it returns true (fail open). -/
theorem C5_should_process {τ : Type} [LinearOrder τ] (isoparse : String → Option τ)
    (repo_status : List (String × RepoEntry)) (repo_url latest_commit : String) :
    (List.lookup (repoKeyOf repo_url) repo_status = none →
      should_process isoparse repo_status repo_url latest_commit = true) ∧
    (∀ entry a b, List.lookup (repoKeyOf repo_url) repo_status = some entry →
      isoparse latest_commit = some a → isoparse entry.last_commit = some b →
      should_process isoparse repo_status repo_url latest_commit = decide (b < a)) ∧
    (∀ entry, List.lookup (repoKeyOf repo_url) repo_status = some entry →
      isoparse latest_commit = none ∨ isoparse entry.last_commit = none →
      should_process isoparse repo_status repo_url latest_commit = true) := by
  refine ⟨?_, ?_, ?_⟩
  · intro hnone
    simp [should_process, hnone]
  · intro entry a b hsome ha hb
    simp [should_process, hsome, ha, hb]
  · intro entry hsome hfail
    rcases hfail with hf | hf
    · simp [should_process, hsome, hf]
    · simp [should_process, hsome, hf]

/-- Witness for C5 at concrete inputs, with natural-number instants and
a small concrete marker parser: a fresher marker on a known repository
gives true via the strict comparison, an unknown repository gives true,
and an unparsable stored marker gives true. -/
theorem C5_should_process_witness :
    should_process (fun s => if s = "7" then some (7 : Nat) else if s = "5" then some 5 else none)
      [("owner/repo", ⟨"5", "h1"⟩)] "https://github.com/owner/repo" "7" = true ∧
    should_process (fun s => if s = "7" then some (7 : Nat) else if s = "5" then some 5 else none)
      [] "https://github.com/owner/repo" "7" = true ∧
    should_process (fun s => if s = "7" then some (7 : Nat) else if s = "5" then some 5 else none)
      [("owner/repo", ⟨"oops", "h1"⟩)] "https://github.com/owner/repo" "7" = true := by
  refine ⟨?_, ?_, ?_⟩
  · exact ((C5_should_process
      (fun s => if s = "7" then some (7 : Nat) else if s = "5" then some 5 else none)
      [("owner/repo", ⟨"5", "h1"⟩)]
      "https://github.com/owner/repo" "7").2.1 ⟨"5", "h1"⟩ 7 5 (by decide) (by decide)
      (by decide)).trans (by decide)
  · exact (C5_should_process
      (fun s => if s = "7" then some (7 : Nat) else if s = "5" then some 5 else none)
      [] "https://github.com/owner/repo" "7").1 (by decide)
  · exact (C5_should_process
      (fun s => if s = "7" then some (7 : Nat) else if s = "5" then some 5 else none)
      [("owner/repo", ⟨"oops", "h1"⟩)] "https://github.com/owner/repo" "7").2.2
      ⟨"oops", "h1"⟩ (by decide) (Or.inr (by decide))

/-- Dict assignment: the assigned key reads back the assigned value. -/
lemma lookup_setKey_self (st : List (String × RepoEntry)) (k : String) (v : RepoEntry) :
    List.lookup k (setKey st k v) = some v := by
  induction st with
  | nil => simp [setKey, List.lookup]
  | cons kv rest ih =>
    cases kv with
    | mk k₀ v₀ =>
      by_cases hk : k₀ = k
      · subst hk
        simp [setKey, List.lookup]
      · have hbeq : (k == k₀) = false := beq_eq_false_iff_ne.mpr (fun h => hk h.symm)
        simp [setKey, hk, List.lookup, hbeq, ih]

/-- Dict assignment: every other key is untouched. -/
lemma lookup_setKey_other (st : List (String × RepoEntry)) (k k' : String) (v : RepoEntry)
    (h : k' ≠ k) : List.lookup k' (setKey st k v) = List.lookup k' st := by
  induction st with
  | nil =>
    have hbeq : (k' == k) = false := beq_eq_false_iff_ne.mpr h
    simp [setKey, List.lookup, hbeq]
  | cons kv rest ih =>
    cases kv with
    | mk k₀ v₀ =>
      by_cases hk : k₀ = k
      · subst hk
        have hbeq : (k' == k₀) = false := beq_eq_false_iff_ne.mpr h
        simp [setKey, List.lookup, hbeq]
      · simp only [setKey, hk, if_false, List.lookup]
        cases h0 : (k' == k₀) <;> simp [h0, ih]

/-- C6 counterexample: at a concrete call, update_status's persistence
trace is a single direct write of the state file — it is not of the
write-temp-then-replace shape the claim asserts (the source's _save opens
the state file itself with mode w and json.dump's into it). -/
theorem C6_counterexample :
    ¬ atomicTempReplace
        (update_status [] "https://github.com/owner/repo" ⟨"2024-01-01T00:00:00Z", "h"⟩).2
        repoStatusFile := by
  rintro ⟨tmp, content, hne, heq⟩
  simp [update_status] at heq

/-- C6 amended: update_status overwrites the entry for the repository key
unconditionally (other keys unchanged) and persists by one direct write of
the whole serialized map to the state file — not by a temporary file plus
replace. -/
theorem C6_update_status_direct_write (repo_status : List (String × RepoEntry))
    (repo_url : String) (ci : CommitInfo) :
    List.lookup (repoKeyOf repo_url) (update_status repo_status repo_url ci).1 =
      some ⟨ci.timestamp, ci.hash⟩ ∧
    (∀ k, k ≠ repoKeyOf repo_url →
      List.lookup k (update_status repo_status repo_url ci).1 =
        List.lookup k repo_status) ∧
    (update_status repo_status repo_url ci).2 =
      [FsOp.write repoStatusFile (dumpRepoStatus (update_status repo_status repo_url ci).1)] := by
  refine ⟨?_, ?_, rfl⟩
  · exact lookup_setKey_self repo_status (repoKeyOf repo_url) ⟨ci.timestamp, ci.hash⟩
  · intro k hk
    exact lookup_setKey_other repo_status (repoKeyOf repo_url) k ⟨ci.timestamp, ci.hash⟩ hk

/-- Witness for C6 amended at a concrete map: an existing entry for the key
is overwritten, a different key is preserved, and the trace is the single
direct write. -/
theorem C6_update_status_direct_write_witness :
    List.lookup "owner/repo"
      (update_status [("owner/repo", ⟨"old", "h0"⟩), ("other/r", ⟨"x", "y"⟩)]
        "https://github.com/owner/repo" ⟨"new", "h1"⟩).1 = some ⟨"new", "h1"⟩ ∧
    List.lookup "other/r"
      (update_status [("owner/repo", ⟨"old", "h0"⟩), ("other/r", ⟨"x", "y"⟩)]
        "https://github.com/owner/repo" ⟨"new", "h1"⟩).1 = some ⟨"x", "y"⟩ := by
  have h := C6_update_status_direct_write
    [("owner/repo", ⟨"old", "h0"⟩), ("other/r", ⟨"x", "y"⟩)]
    "https://github.com/owner/repo" ⟨"new", "h1"⟩
  refine ⟨?_, ?_⟩
  · have h1 := h.1
    simpa using h1
  · have h2 := h.2.1 "other/r" (by decide)
    exact h2.trans (by decide)

/-- Content that fails the whole-content Base64 test passes through the
recursive Base64 stage unchanged (at any depth). -/
lemma parse_base64_config_not_b64 (s : String) (d : Nat) (h : is_base64 s = false) :
    parse_base64_config s d = s := by
  rw [parse_base64_config, parse_base64_config_core]
  by_cases hd : d > 2 <;> simp [hd, h]

/-- C8: the malformed line `ss://YWVzLTI1Ni1nY206cGFzc3dvcmQ=@` (its
Base64 payload decodes to `aes-256-gcm:password`, which carries no
`@host:port` part) is swallowed by the per-line decoder, the line-stage
and the whole link processing: zero descriptors, exactly one recorded
failure for the source, no exception surfaces (the embedding is total and
the failure is a report entry, not a raised error).  The structured stage
argument mirrors yaml.safe_load on this content: the line is one YAML
scalar, not a mapping, so that stage reports failure. -/
theorem C8_malformed_ss_line :
    parse_ss "ss://YWVzLTI1Ni1nY206cGFzc3dvcmQ=@" = none ∧
    parse_single_line "ss://YWVzLTI1Ni1nY206cGFzc3dvcmQ=@" = none ∧
    parse_node_links (fun _ => ⟨false, []⟩)
      (fun _ => some "ss://YWVzLTI1Ni1nY206cGFzc3dvcmQ=@") ["src"] =
      { total_links := 1, success_count := 0, failure_count := 1, total_nodes := 0,
        nodes := [], failures := [⟨"src", "无法识别配置格式"⟩] } := by
  have h0 : parse_base64_config "ss://YWVzLTI1Ni1nY206cGFzc3dvcmQ=@" 0 =
      "ss://YWVzLTI1Ni1nY206cGFzc3dvcmQ=@" :=
    parse_base64_config_not_b64 _ 0 (by decide)
  refine ⟨by decide, by decide, ?_⟩
  simp only [parse_node_links, List.foldl, processLink, classifyContentRaw, h0]
  decide

/-- C4 (failing-input evaluation): generating the URI of a trojan
descriptor and decoding it with the trojan line decoder does NOT recover
the kind.  The duplicated `type` key in the source's dict literal makes
the parser report the transport type (`tcp` by default) as the kind, so
the {kind, host, port} round-trip fails on its kind component while host
and port survive.  (Shadowsocks, by contrast, round-trips its kind — last
conjunct — which shows the trojan behavior to be the slip.) -/
theorem C4_trojan_roundtrip_loses_kind :
    generate_uri [("type", "trojan"), ("name", "n"), ("server", "h"), ("port", "1"),
        ("password", "p"), ("sni", "")] =
      some "trojan://p@h:1?security=tls#n" ∧
    parse_trojan "trojan://p@h:1?security=tls#n" =
      some [("type", "tcp"), ("name", "n"), ("server", "h"), ("port", "1"),
        ("password", "p"), ("sni", ""), ("security", "tls")] ∧
    (parse_trojan "trojan://p@h:1?security=tls#n").map (fun n => nodeGet n "type" "") ≠
      some "trojan" ∧
    (parse_trojan "trojan://p@h:1?security=tls#n").map (fun n => nodeGet n "server" "") =
      some "h" ∧
    (parse_trojan "trojan://p@h:1?security=tls#n").map (fun n => nodeGet n "port" "") =
      some "1" ∧
    ((generate_uri [("type", "ss"), ("name", "n"), ("server", "h"), ("port", "80"),
        ("password", "p"), ("cipher", "m")]).bind parse_ss).map
        (fun n => (nodeGet n "type" "", nodeGet n "server" "", nodeGet n "port" "")) =
      some ("ss", "h", "80") := by
  refine ⟨by decide, by decide, by decide, by decide, by decide, by decide⟩

/-- C3 counterexample: on c3Content the structured stage succeeds, yet the
cascade's result is the line-stage's descriptor set, not the structured
stage's — the source attempts the line-delimited text stage BEFORE the
structured stage, the reverse of the claimed order. -/
theorem C3_counterexample :
    (c3ClashStage c3Content).success = true ∧
    classifyContent c3ClashStage c3Content =
      some ([[("type", "tcp"), ("name", "n"), ("server", "h"), ("port", "1"),
        ("password", "p"), ("sni", ""), ("security", "tls")]], "text") ∧
    classifyContent c3ClashStage c3Content ≠
      some ((c3ClashStage c3Content).data, "clash") := by
  have h0 : parse_base64_config c3Content 0 = c3Content :=
    parse_base64_config_not_b64 _ 0 (by decide)
  refine ⟨by decide, ?_, ?_⟩
  · simp only [classifyContent, h0]
    decide
  · simp only [classifyContent, h0]
    decide

/-- C3 amended: the cascade attempts the line-delimited URI stage first;
only when that stage yields no descriptors does it attempt the
structured-config stage (twice — the source's third attempt repeats the
same structured parse); the first stage that succeeds determines the
file's descriptors, and if none succeeds the file is unrecognized. -/
theorem C3_cascade_text_first (clashStage : String → StageResult) (content : String) :
    ((parse_txt_content (parse_base64_config content 0)).success = true →
      classifyContent clashStage content =
        some ((parse_txt_content (parse_base64_config content 0)).data, "text")) ∧
    ((parse_txt_content (parse_base64_config content 0)).success = false →
      (clashStage (parse_base64_config content 0)).success = true →
      classifyContent clashStage content =
        some ((clashStage (parse_base64_config content 0)).data, "clash")) ∧
    ((parse_txt_content (parse_base64_config content 0)).success = false →
      (clashStage (parse_base64_config content 0)).success = false →
      classifyContent clashStage content = none) := by
  refine ⟨?_, ?_, ?_⟩
  · intro h1
    simp [classifyContent, h1]
  · intro h1 h2
    simp [classifyContent, h1, h2]
  · intro h1 h2
    simp [classifyContent, h1, h2]

/-- Witness for C3 amended at concrete inputs: a decodable trojan line
wins the cascade through the text stage even with a failing structured
stage, and a line-stage failure falls through to the structured stage. -/
theorem C3_cascade_text_first_witness :
    (parse_txt_content (parse_base64_config "trojan://p@h:1#n" 0)).success = true ∧
    classifyContent (fun _ => ⟨false, []⟩) "trojan://p@h:1#n" =
      some ([[("type", "tcp"), ("name", "n"), ("server", "h"), ("port", "1"),
        ("password", "p"), ("sni", ""), ("security", "tls")]], "text") ∧
    (parse_txt_content (parse_base64_config "hello" 0)).success = false ∧
    classifyContent (fun _ => ⟨true, [[("name", "a"), ("type", "tcp"),
        ("server", "h"), ("port", "1")]]⟩) "hello" =
      some ([[("name", "a"), ("type", "tcp"), ("server", "h"), ("port", "1")]], "clash") := by
  have ha : parse_base64_config "trojan://p@h:1#n" 0 = "trojan://p@h:1#n" :=
    parse_base64_config_not_b64 _ 0 (by decide)
  have hb : parse_base64_config "hello" 0 = "hello" :=
    parse_base64_config_not_b64 _ 0 (by decide)
  refine ⟨?_, ?_, ?_, ?_⟩
  · rw [ha]
    decide
  · exact ((C3_cascade_text_first (fun _ => ⟨false, []⟩) "trojan://p@h:1#n").1
      (by rw [ha]; decide)).trans (by rw [ha]; decide)
  · rw [hb]
    decide
  · exact ((C3_cascade_text_first (fun _ => ⟨true, [[("name", "a"), ("type", "tcp"),
      ("server", "h"), ("port", "1")]]⟩) "hello").2.1
      (by rw [hb]; decide) (by decide)).trans (by decide)

/-- The merge loop appends exactly the kept nodes to its accumulator. -/
lemma mergeLoop_snd (ns : List Node) : ∀ (seen : List String) (acc : List Node),
    (mergeLoop seen acc ns).2 = acc ++ keptFrom seen ns := by
  induction ns with
  | nil =>
    intro seen acc
    simp [mergeLoop, keptFrom]
  | cons n rest ih =>
    intro seen acc
    by_cases hn : generate_fingerprint n ∈ seen
    · simp [mergeLoop, keptFrom, hn, ih]
    · simp [mergeLoop, keptFrom, hn, ih]

/-- Membership in the final seen set is membership in the initial seen
set or among the kept nodes' fingerprints. -/
lemma mergeLoop_fst_mem (ns : List Node) : ∀ (seen : List String) (acc : List Node) (x : String),
    x ∈ (mergeLoop seen acc ns).1 ↔
      x ∈ seen ∨ x ∈ (keptFrom seen ns).map generate_fingerprint := by
  induction ns with
  | nil =>
    intro seen acc x
    simp [mergeLoop, keptFrom]
  | cons n rest ih =>
    intro seen acc x
    by_cases hn : generate_fingerprint n ∈ seen
    · simp [mergeLoop, keptFrom, hn, ih]
    · simp only [mergeLoop, keptFrom, hn, if_neg, if_false, ih, List.map_cons, List.mem_cons]
      constructor
      · rintro (h | h) <;> tauto
      · rintro (h | h | h) <;> tauto

/-- keptFrom only reads the seen set through membership. -/
lemma keptFrom_congr (ns : List Node) : ∀ (s₁ s₂ : List String),
    (∀ x, x ∈ s₁ ↔ x ∈ s₂) → keptFrom s₁ ns = keptFrom s₂ ns := by
  induction ns with
  | nil => intro s₁ s₂ _; rfl
  | cons n rest ih =>
    intro s₁ s₂ h
    by_cases hn : generate_fingerprint n ∈ s₁
    · have hn₂ : generate_fingerprint n ∈ s₂ := (h _).mp hn
      simp [keptFrom, hn, hn₂, ih _ _ h]
    · have hn₂ : generate_fingerprint n ∉ s₂ := fun hx => hn ((h _).mpr hx)
      have hcong : ∀ x, x ∈ generate_fingerprint n :: s₁ ↔ x ∈ generate_fingerprint n :: s₂ := by
        intro x
        simp [h x]
      simp [keptFrom, hn, hn₂, ih _ _ hcong]

/-- Over fingerprint-distinct input whose fingerprints avoid the seen
set, the pass keeps everything. -/
lemma keptFrom_all (ns : List Node) : ∀ (seen : List String),
    (∀ n ∈ ns, generate_fingerprint n ∉ seen) →
    (ns.map generate_fingerprint).Nodup → keptFrom seen ns = ns := by
  induction ns with
  | nil => intro seen _ _; rfl
  | cons n rest ih =>
    intro seen hsep hnd
    rw [List.map_cons, List.nodup_cons] at hnd
    have hn : generate_fingerprint n ∉ seen := hsep n (by simp)
    have hrest : ∀ m ∈ rest, generate_fingerprint m ∉ generate_fingerprint n :: seen := by
      intro m hm
      simp only [List.mem_cons]
      rintro (h | h)
      · exact hnd.1 (by simpa [h] using List.mem_map_of_mem generate_fingerprint hm)
      · exact hsep m (by simp [hm]) h
    simp [keptFrom, hn, ih _ hrest hnd.2]

/-- Every kept node's fingerprint avoids the initial seen set. -/
lemma keptFrom_avoids (ns : List Node) : ∀ (seen : List String) (f : Node),
    f ∈ keptFrom seen ns → generate_fingerprint f ∉ seen := by
  induction ns with
  | nil =>
    intro seen f hf
    simp [keptFrom] at hf
  | cons n rest ih =>
    intro seen f hf
    by_cases hn : generate_fingerprint n ∈ seen
    · rw [keptFrom, if_pos hn] at hf
      exact ih _ _ hf
    · rw [keptFrom, if_neg hn] at hf
      rcases List.mem_cons.mp hf with h | h
      · subst h
        exact hn
      · have := ih _ _ h
        intro hx
        exact this (List.mem_cons_of_mem _ hx)

/-- C2: with a fingerprint-distinct historical set H, merge_nodes inserts
all of H first (the merged list is H followed by the surviving fresh
nodes), and the surviving fresh nodes are exactly those whose fingerprint
is not already present (threaded left to right); in particular a fresh
descriptor whose fingerprint already occurs in H is dropped and the
historical record is the one kept. -/
theorem C2_history_merge (F H : List Node)
    (hH : (H.map generate_fingerprint).Nodup) :
    merge_nodes ⟨F⟩ H = H ++ keptFrom (H.map generate_fingerprint) F ∧
    (∀ h ∈ H, h ∈ merge_nodes ⟨F⟩ H) ∧
    (∀ f ∈ keptFrom (H.map generate_fingerprint) F,
      generate_fingerprint f ∉ H.map generate_fingerprint) := by
  have hfst : ∀ x, x ∈ (mergeLoop [] [] H).1 ↔ x ∈ H.map generate_fingerprint := by
    intro x
    rw [mergeLoop_fst_mem H [] [] x]
    rw [keptFrom_all H [] (by simp) hH]
    simp
  have hmain : merge_nodes ⟨F⟩ H = H ++ keptFrom (H.map generate_fingerprint) F := by
    show (mergeLoop (mergeLoop [] [] H).1 (mergeLoop [] [] H).2 F).2 = _
    rw [mergeLoop_snd F, mergeLoop_snd H [] []]
    rw [keptFrom_all H [] (by simp) hH]
    rw [keptFrom_congr F _ _ hfst]
    simp
  refine ⟨hmain, ?_, ?_⟩
  · intro h hh
    rw [hmain]
    exact List.mem_append_left _ hh
  · intro f hf
    exact keptFrom_avoids F _ f hf

/-- Witness for C2 at a concrete history and fresh batch: the fresh copy
of the historical shadowsocks node (same canonical fields, different
display name) is dropped — the historical record stays — while a genuinely
new trojan node is appended after all of history. -/
theorem C2_history_merge_witness :
    merge_nodes
      ⟨[[("type", "ss"), ("name", "fresh-copy"), ("server", "h"), ("port", "80"),
          ("password", "p"), ("cipher", "m")],
        [("type", "trojan"), ("name", "new"), ("server", "t"), ("port", "443"),
          ("password", "q"), ("sni", "")]]⟩
      [[("type", "ss"), ("name", "curated"), ("server", "h"), ("port", "80"),
          ("password", "p"), ("cipher", "m")]] =
      [[("type", "ss"), ("name", "curated"), ("server", "h"), ("port", "80"),
          ("password", "p"), ("cipher", "m")],
       [("type", "trojan"), ("name", "new"), ("server", "t"), ("port", "443"),
          ("password", "q"), ("sni", "")]] := by
  have h := C2_history_merge
    [[("type", "ss"), ("name", "fresh-copy"), ("server", "h"), ("port", "80"),
        ("password", "p"), ("cipher", "m")],
     [("type", "trojan"), ("name", "new"), ("server", "t"), ("port", "443"),
        ("password", "q"), ("sni", "")]]
    [[("type", "ss"), ("name", "curated"), ("server", "h"), ("port", "80"),
        ("password", "p"), ("cipher", "m")]]
    (by decide)
  exact h.1.trans (by decide)

/-- Strings with equal character data are equal. -/
lemma chars_inj {s t : String} (h : chars s = chars t) : s = t := by
  cases s
  cases t
  simp only [chars] at h
  rw [h]

/-- Escaping is the identity on special-free character lists. -/
lemma flatMap_esc_id (l : List Char) (h : ∀ c ∈ l, ¬(c = '"' ∨ c = '\\')) :
    l.flatMap jsonEscapeChar = l := by
  induction l with
  | nil => rfl
  | cons c cs ih =>
    have hc : ¬(c = '"' ∨ c = '\\') := h c (by simp)
    simp only [List.flatMap_cons, jsonEscapeChar, if_neg hc]
    rw [ih (fun x hx => h x (by simp [hx]))]
    rfl

/-- jsonEscape is the identity on special-free strings. -/
lemma jsonEscape_id (s : String) (h : noJsonSpecial s) : jsonEscape s = chars s := by
  rw [jsonEscape]
  apply flatMap_esc_id
  intro c hc
  rintro (rfl | rfl)
  · exact h.1 hc
  · exact h.2 hc

/-- Splitting at an unambiguous delimiter: if neither prefix contains the
delimiter, the decomposition around its first occurrence is unique. -/
lemma append_delim_inj (c : Char) :
    ∀ (a₁ a₂ b₁ b₂ : List Char), c ∉ a₁ → c ∉ a₂ →
      a₁ ++ c :: b₁ = a₂ ++ c :: b₂ → a₁ = a₂ ∧ b₁ = b₂ := by
  intro a₁
  induction a₁ with
  | nil =>
    intro a₂ b₁ b₂ _ h₂ he
    cases a₂ with
    | nil => simpa using he
    | cons y ys =>
      simp only [List.nil_append, List.cons_append, List.cons.injEq] at he
      exact absurd (he.1 ▸ List.mem_cons_self y ys) h₂
  | cons x xs ih =>
    intro a₂ b₁ b₂ h₁ h₂ he
    cases a₂ with
    | nil =>
      simp only [List.nil_append, List.cons_append, List.cons.injEq] at he
      exact absurd (he.1.symm ▸ List.mem_cons_self x xs) h₁
    | cons y ys =>
      simp only [List.cons_append, List.cons.injEq] at he
      have hrec := ih ys b₁ b₂ (fun hm => h₁ (List.mem_cons_of_mem _ hm))
        (fun hm => h₂ (List.mem_cons_of_mem _ hm)) he.2
      exact ⟨by rw [he.1, hrec.1], hrec.2⟩

/-- One rendered member followed by a tail, reassociated so the value is
delimited by its closing quote. -/
lemma renderPair_peel (k v : String) (X : List Char) :
    renderPair k v ++ X =
      '"' :: (jsonEscape k ++ '"' :: ':' :: ' ' :: '"' :: (jsonEscape v ++ '"' :: X)) := by
  simp [renderPair, List.append_assoc]

/-- Two rendered members with the same key and special-free values agree
exactly when their values and tails agree. -/
lemma pair_inj (k v₁ v₂ : String) (X₁ X₂ : List Char)
    (h₁ : noJsonSpecial v₁) (h₂ : noJsonSpecial v₂)
    (he : renderPair k v₁ ++ X₁ = renderPair k v₂ ++ X₂) : v₁ = v₂ ∧ X₁ = X₂ := by
  rw [renderPair_peel, renderPair_peel] at he
  simp only [List.cons.injEq, true_and] at he
  have he₂ := List.append_cancel_left he
  simp only [List.cons.injEq, true_and] at he₂
  rw [jsonEscape_id _ h₁, jsonEscape_id _ h₂] at he₂
  have hr := append_delim_inj '"' (chars v₁) (chars v₂) X₁ X₂ h₁.1 h₂.1 he₂
  exact ⟨chars_inj hr.1, hr.2⟩

/-- Rendering is injective over association lists with identical key
sequences and special-free values. -/
lemma renderFields_inj :
    ∀ (l₁ l₂ : List (String × String)),
      l₁.map Prod.fst = l₂.map Prod.fst →
      (∀ kv ∈ l₁, noJsonSpecial kv.2) →
      (∀ kv ∈ l₂, noJsonSpecial kv.2) →
      renderFields l₁ = renderFields l₂ → l₁ = l₂ := by
  intro l₁
  induction l₁ with
  | nil =>
    intro l₂ hmap _ _ _
    cases l₂ with
    | nil => rfl
    | cons _ _ => simp at hmap
  | cons kv₁ rest₁ ih =>
    intro l₂ hmap hs₁ hs₂ hr
    cases l₂ with
    | nil => simp at hmap
    | cons kv₂ rest₂ =>
      simp only [List.map_cons, List.cons.injEq] at hmap
      obtain ⟨hk, hmaprest⟩ := hmap
      cases rest₁ with
      | nil =>
        cases rest₂ with
        | cons _ _ => simp at hmaprest
        | nil =>
          have e₁ : renderFields [kv₁] = renderPair kv₁.1 kv₁.2 := rfl
          have e₂ : renderFields [kv₂] = renderPair kv₂.1 kv₂.2 := rfl
          rw [e₁, e₂] at hr
          have hr' : renderPair kv₁.1 kv₁.2 ++ ([] : List Char) =
              renderPair kv₁.1 kv₂.2 ++ ([] : List Char) := by
            simpa [hk] using hr
          have hv := pair_inj kv₁.1 kv₁.2 kv₂.2 [] []
            (hs₁ _ (by simp)) (hs₂ _ (by simp)) hr'
          have : kv₁ = kv₂ := Prod.ext hk hv.1
          rw [this]
      | cons a as =>
        cases rest₂ with
        | nil => simp at hmaprest
        | cons b bs =>
          have e₁ : renderFields (kv₁ :: a :: as) =
              renderPair kv₁.1 kv₁.2 ++ ',' :: ' ' :: renderFields (a :: as) := rfl
          have e₂ : renderFields (kv₂ :: b :: bs) =
              renderPair kv₂.1 kv₂.2 ++ ',' :: ' ' :: renderFields (b :: bs) := rfl
          rw [e₁, e₂] at hr
          have hr' : renderPair kv₁.1 kv₁.2 ++ (',' :: ' ' :: renderFields (a :: as)) =
              renderPair kv₁.1 kv₂.2 ++ (',' :: ' ' :: renderFields (b :: bs)) := by
            simpa [hk] using hr
          have hv := pair_inj kv₁.1 kv₁.2 kv₂.2 _ _
            (hs₁ _ (by simp)) (hs₂ _ (by simp)) hr'
          have htail : renderFields (a :: as) = renderFields (b :: bs) := by
            have := hv.2
            simpa using this
          have hrest := ih (b :: bs) hmaprest
            (fun kv hkv => hs₁ kv (by simp [hkv]))
            (fun kv hkv => hs₂ kv (by simp [hkv])) htail
          have : kv₁ = kv₂ := Prod.ext hk hv.1
          rw [this, hrest]

/-- The canonical ss field set in sorted-key order. -/
lemma sortByKey_ss (t s p c w : String) :
    sortByKey [("type", t), ("server", s), ("port", p), ("cipher", c), ("password", w)] =
      [("cipher", c), ("password", w), ("port", p), ("server", s), ("type", t)] := rfl

/-- The canonical vmess field set in sorted-key order. -/
lemma sortByKey_vmess (t s p u a n : String) :
    sortByKey [("type", t), ("server", s), ("port", p), ("uuid", u),
        ("alterId", a), ("network", n)] =
      [("alterId", a), ("network", n), ("port", p), ("server", s), ("type", t), ("uuid", u)] := rfl

/-- The canonical trojan field set in sorted-key order. -/
lemma sortByKey_trojan (t s p w n : String) :
    sortByKey [("type", t), ("server", s), ("port", p), ("password", w), ("sni", n)] =
      [("password", w), ("port", p), ("server", s), ("sni", n), ("type", t)] := rfl

/-- Serialization agrees exactly when the (equal-keyed, special-free)
sorted field lists agree. -/
lemma jsonDumpsSorted_inj (l₁ l₂ : List (String × String))
    (hmap : (sortByKey l₁).map Prod.fst = (sortByKey l₂).map Prod.fst)
    (hs₁ : ∀ kv ∈ sortByKey l₁, noJsonSpecial kv.2)
    (hs₂ : ∀ kv ∈ sortByKey l₂, noJsonSpecial kv.2)
    (h : jsonDumpsSorted l₁ = jsonDumpsSorted l₂) : sortByKey l₁ = sortByKey l₂ := by
  rw [jsonDumpsSorted, jsonDumpsSorted, ofChars, ofChars] at h
  have hdata : '\x7b' :: (renderFields (sortByKey l₁) ++ ['\x7d']) =
      '\x7b' :: (renderFields (sortByKey l₂) ++ ['\x7d']) := by
    injection h
  simp only [List.cons.injEq, true_and] at hdata
  have hrf := List.append_cancel_right hdata
  exact renderFields_inj _ _ hmap hs₁ hs₂ hrf

/-- generate_fingerprint on an ss-kind descriptor, unfolded to its
canonical serialized field set. -/
lemma fingerprint_ss (n : Node) (ht : lowerStr (nodeGet n "type" "unknown") = "ss") :
    generate_fingerprint n = jsonDumpsSorted
      [("type", "ss"), ("server", nodeGet n "server" ""), ("port", nodeGet n "port" ""),
       ("cipher", nodeGet n "cipher" ""), ("password", nodeGet n "password" "")] := by
  rw [generate_fingerprint]
  simp only [ht]
  simp

/-- generate_fingerprint on a vmess-kind descriptor. -/
lemma fingerprint_vmess (n : Node) (ht : lowerStr (nodeGet n "type" "unknown") = "vmess") :
    generate_fingerprint n = jsonDumpsSorted
      [("type", "vmess"), ("server", nodeGet n "server" ""), ("port", nodeGet n "port" ""),
       ("uuid", nodeGet n "uuid" ""), ("alterId", nodeGet n "alterId" "0"),
       ("network", nodeGet n "network" "tcp")] := by
  rw [generate_fingerprint]
  simp only [ht]
  rw [if_neg (by decide : ¬("vmess" : String) = "ss")]
  simp

/-- generate_fingerprint on a trojan-kind descriptor. -/
lemma fingerprint_trojan (n : Node) (ht : lowerStr (nodeGet n "type" "unknown") = "trojan") :
    generate_fingerprint n = jsonDumpsSorted
      [("type", "trojan"), ("server", nodeGet n "server" ""), ("port", nodeGet n "port" ""),
       ("password", nodeGet n "password" ""), ("sni", nodeGet n "sni" "")] := by
  rw [generate_fingerprint]
  simp only [ht]
  rw [if_neg (by decide : ¬("trojan" : String) = "ss")]
  rw [if_neg (by decide : ¬("trojan" : String) = "vmess")]
  simp

/-- C1 counterexample: two vless descriptors agreeing on kind, server,
port and every kind-specific field, differing only in display name,
nevertheless receive different fingerprints — for kinds outside
{ss, vmess, trojan} the source hashes the ENTIRE descriptor, display name
included, so surrounding metadata does change the dedup key. -/
theorem C1_counterexample :
    nodeGet [("type", "vless"), ("name", "a"), ("server", "h"), ("port", "1"), ("uuid", "u")]
        "type" "" =
      nodeGet [("type", "vless"), ("name", "b"), ("server", "h"), ("port", "1"), ("uuid", "u")]
        "type" "" ∧
    nodeGet [("type", "vless"), ("name", "a"), ("server", "h"), ("port", "1"), ("uuid", "u")]
        "server" "" =
      nodeGet [("type", "vless"), ("name", "b"), ("server", "h"), ("port", "1"), ("uuid", "u")]
        "server" "" ∧
    nodeGet [("type", "vless"), ("name", "a"), ("server", "h"), ("port", "1"), ("uuid", "u")]
        "port" "" =
      nodeGet [("type", "vless"), ("name", "b"), ("server", "h"), ("port", "1"), ("uuid", "u")]
        "port" "" ∧
    nodeGet [("type", "vless"), ("name", "a"), ("server", "h"), ("port", "1"), ("uuid", "u")]
        "uuid" "" =
      nodeGet [("type", "vless"), ("name", "b"), ("server", "h"), ("port", "1"), ("uuid", "u")]
        "uuid" "" ∧
    generate_fingerprint
        [("type", "vless"), ("name", "a"), ("server", "h"), ("port", "1"), ("uuid", "u")] ≠
      generate_fingerprint
        [("type", "vless"), ("name", "b"), ("server", "h"), ("port", "1"), ("uuid", "u")] := by
  refine ⟨rfl, rfl, rfl, rfl, by decide⟩

/-- C1 amended: the fingerprint is deterministic, and for the three
canonically fingerprinted kinds (ss, vmess, trojan) it is exactly a
function of the canonical fields: two descriptors of such a kind have
equal fingerprints iff they agree on every canonical field (so display
name and any other metadata never matter, and changing any canonical
field changes the hashed serialization), stated for escape-free field
values so the serialized form is unambiguous. -/
theorem C1_fingerprint_canonical :
    (∀ d : Node, generate_fingerprint d = generate_fingerprint d) ∧
    (∀ n₁ n₂ : Node,
      lowerStr (nodeGet n₁ "type" "unknown") = "ss" →
      lowerStr (nodeGet n₂ "type" "unknown") = "ss" →
      noJsonSpecial (nodeGet n₁ "server" "") → noJsonSpecial (nodeGet n₂ "server" "") →
      noJsonSpecial (nodeGet n₁ "port" "") → noJsonSpecial (nodeGet n₂ "port" "") →
      noJsonSpecial (nodeGet n₁ "cipher" "") → noJsonSpecial (nodeGet n₂ "cipher" "") →
      noJsonSpecial (nodeGet n₁ "password" "") → noJsonSpecial (nodeGet n₂ "password" "") →
      (generate_fingerprint n₁ = generate_fingerprint n₂ ↔
        (nodeGet n₁ "server" "" = nodeGet n₂ "server" "" ∧
         nodeGet n₁ "port" "" = nodeGet n₂ "port" "" ∧
         nodeGet n₁ "cipher" "" = nodeGet n₂ "cipher" "" ∧
         nodeGet n₁ "password" "" = nodeGet n₂ "password" ""))) ∧
    (∀ n₁ n₂ : Node,
      lowerStr (nodeGet n₁ "type" "unknown") = "vmess" →
      lowerStr (nodeGet n₂ "type" "unknown") = "vmess" →
      noJsonSpecial (nodeGet n₁ "server" "") → noJsonSpecial (nodeGet n₂ "server" "") →
      noJsonSpecial (nodeGet n₁ "port" "") → noJsonSpecial (nodeGet n₂ "port" "") →
      noJsonSpecial (nodeGet n₁ "uuid" "") → noJsonSpecial (nodeGet n₂ "uuid" "") →
      noJsonSpecial (nodeGet n₁ "alterId" "0") → noJsonSpecial (nodeGet n₂ "alterId" "0") →
      noJsonSpecial (nodeGet n₁ "network" "tcp") → noJsonSpecial (nodeGet n₂ "network" "tcp") →
      (generate_fingerprint n₁ = generate_fingerprint n₂ ↔
        (nodeGet n₁ "server" "" = nodeGet n₂ "server" "" ∧
         nodeGet n₁ "port" "" = nodeGet n₂ "port" "" ∧
         nodeGet n₁ "uuid" "" = nodeGet n₂ "uuid" "" ∧
         nodeGet n₁ "alterId" "0" = nodeGet n₂ "alterId" "0" ∧
         nodeGet n₁ "network" "tcp" = nodeGet n₂ "network" "tcp"))) ∧
    (∀ n₁ n₂ : Node,
      lowerStr (nodeGet n₁ "type" "unknown") = "trojan" →
      lowerStr (nodeGet n₂ "type" "unknown") = "trojan" →
      noJsonSpecial (nodeGet n₁ "server" "") → noJsonSpecial (nodeGet n₂ "server" "") →
      noJsonSpecial (nodeGet n₁ "port" "") → noJsonSpecial (nodeGet n₂ "port" "") →
      noJsonSpecial (nodeGet n₁ "password" "") → noJsonSpecial (nodeGet n₂ "password" "") →
      noJsonSpecial (nodeGet n₁ "sni" "") → noJsonSpecial (nodeGet n₂ "sni" "") →
      (generate_fingerprint n₁ = generate_fingerprint n₂ ↔
        (nodeGet n₁ "server" "" = nodeGet n₂ "server" "" ∧
         nodeGet n₁ "port" "" = nodeGet n₂ "port" "" ∧
         nodeGet n₁ "password" "" = nodeGet n₂ "password" "" ∧
         nodeGet n₁ "sni" "" = nodeGet n₂ "sni" ""))) := by
  refine ⟨fun _ => rfl, ?_, ?_, ?_⟩
  · intro n₁ n₂ ht₁ ht₂ hs₁ hs₂ hp₁ hp₂ hc₁ hc₂ hw₁ hw₂
    constructor
    · intro hfp
      rw [fingerprint_ss n₁ ht₁, fingerprint_ss n₂ ht₂] at hfp
      have hsort := jsonDumpsSorted_inj _ _
        (by rw [sortByKey_ss, sortByKey_ss]; rfl)
        (by
          rw [sortByKey_ss]
          intro kv hkv
          simp only [List.mem_cons, List.not_mem_nil, or_false] at hkv
          rcases hkv with rfl | rfl | rfl | rfl | rfl
          exacts [hc₁, hw₁, hp₁, hs₁, by decide])
        (by
          rw [sortByKey_ss]
          intro kv hkv
          simp only [List.mem_cons, List.not_mem_nil, or_false] at hkv
          rcases hkv with rfl | rfl | rfl | rfl | rfl
          exacts [hc₂, hw₂, hp₂, hs₂, by decide])
        hfp
      rw [sortByKey_ss, sortByKey_ss] at hsort
      simp only [List.cons.injEq, Prod.mk.injEq, true_and, and_true] at hsort
      exact ⟨hsort.2.2.2, hsort.2.2.1, hsort.1, hsort.2.1⟩
    · rintro ⟨h₁, h₂, h₃, h₄⟩
      rw [fingerprint_ss n₁ ht₁, fingerprint_ss n₂ ht₂, h₁, h₂, h₃, h₄]
  · intro n₁ n₂ ht₁ ht₂ hs₁ hs₂ hp₁ hp₂ hu₁ hu₂ ha₁ ha₂ hn₁ hn₂
    constructor
    · intro hfp
      rw [fingerprint_vmess n₁ ht₁, fingerprint_vmess n₂ ht₂] at hfp
      have hsort := jsonDumpsSorted_inj _ _
        (by rw [sortByKey_vmess, sortByKey_vmess]; rfl)
        (by
          rw [sortByKey_vmess]
          intro kv hkv
          simp only [List.mem_cons, List.not_mem_nil, or_false] at hkv
          rcases hkv with rfl | rfl | rfl | rfl | rfl | rfl
          exacts [ha₁, hn₁, hp₁, hs₁, by decide, hu₁])
        (by
          rw [sortByKey_vmess]
          intro kv hkv
          simp only [List.mem_cons, List.not_mem_nil, or_false] at hkv
          rcases hkv with rfl | rfl | rfl | rfl | rfl | rfl
          exacts [ha₂, hn₂, hp₂, hs₂, by decide, hu₂])
        hfp
      rw [sortByKey_vmess, sortByKey_vmess] at hsort
      simp only [List.cons.injEq, Prod.mk.injEq, true_and, and_true] at hsort
      exact ⟨hsort.2.2.2.1, hsort.2.2.1, hsort.2.2.2.2, hsort.1, hsort.2.1⟩
    · rintro ⟨h₁, h₂, h₃, h₄, h₅⟩
      rw [fingerprint_vmess n₁ ht₁, fingerprint_vmess n₂ ht₂, h₁, h₂, h₃, h₄, h₅]
  · intro n₁ n₂ ht₁ ht₂ hs₁ hs₂ hp₁ hp₂ hw₁ hw₂ hn₁ hn₂
    constructor
    · intro hfp
      rw [fingerprint_trojan n₁ ht₁, fingerprint_trojan n₂ ht₂] at hfp
      have hsort := jsonDumpsSorted_inj _ _
        (by rw [sortByKey_trojan, sortByKey_trojan]; rfl)
        (by
          rw [sortByKey_trojan]
          intro kv hkv
          simp only [List.mem_cons, List.not_mem_nil, or_false] at hkv
          rcases hkv with rfl | rfl | rfl | rfl | rfl
          exacts [hw₁, hp₁, hs₁, hn₁, by decide])
        (by
          rw [sortByKey_trojan]
          intro kv hkv
          simp only [List.mem_cons, List.not_mem_nil, or_false] at hkv
          rcases hkv with rfl | rfl | rfl | rfl | rfl
          exacts [hw₂, hp₂, hs₂, hn₂, by decide])
        hfp
      rw [sortByKey_trojan, sortByKey_trojan] at hsort
      simp only [List.cons.injEq, Prod.mk.injEq, true_and, and_true] at hsort
      exact ⟨hsort.2.2.1, hsort.2.1, hsort.1, hsort.2.2.2⟩
    · rintro ⟨h₁, h₂, h₃, h₄⟩
      rw [fingerprint_trojan n₁ ht₁, fingerprint_trojan n₂ ht₂, h₁, h₂, h₃, h₄]

/-- Witness for C1 amended at concrete ss descriptors: same canonical
fields with different display names share a fingerprint; changing the
server host changes it. -/
theorem C1_fingerprint_canonical_witness :
    generate_fingerprint [("type", "ss"), ("name", "x"), ("server", "h"), ("port", "80"),
        ("cipher", "c"), ("password", "p")] =
      generate_fingerprint [("type", "ss"), ("name", "y"), ("server", "h"), ("port", "80"),
        ("cipher", "c"), ("password", "p")] ∧
    generate_fingerprint [("type", "ss"), ("name", "x"), ("server", "h"), ("port", "80"),
        ("cipher", "c"), ("password", "p")] ≠
      generate_fingerprint [("type", "ss"), ("name", "x"), ("server", "h2"), ("port", "80"),
        ("cipher", "c"), ("password", "p")] := by
  constructor
  · exact (C1_fingerprint_canonical.2.1
      [("type", "ss"), ("name", "x"), ("server", "h"), ("port", "80"),
        ("cipher", "c"), ("password", "p")]
      [("type", "ss"), ("name", "y"), ("server", "h"), ("port", "80"),
        ("cipher", "c"), ("password", "p")]
      (by decide) (by decide) (by decide) (by decide) (by decide) (by decide)
      (by decide) (by decide) (by decide) (by decide)).mpr ⟨rfl, rfl, rfl, rfl⟩
  · intro h
    have hfields := (C1_fingerprint_canonical.2.1
      [("type", "ss"), ("name", "x"), ("server", "h"), ("port", "80"),
        ("cipher", "c"), ("password", "p")]
      [("type", "ss"), ("name", "x"), ("server", "h2"), ("port", "80"),
        ("cipher", "c"), ("password", "p")]
      (by decide) (by decide) (by decide) (by decide) (by decide) (by decide)
      (by decide) (by decide) (by decide) (by decide)).mp h
    exact absurd hfields.1 (by decide)

/-- Coherence of the two cascade views: over a structured stage that only
delivers well-formed descriptors, the raw cascade is the descriptor-level
cascade with its elements wrapped. -/
lemma classifyContentRaw_nodes (cs : String → StageResult) (content : String) :
    classifyContentRaw (fun s => ⟨(cs s).success, (cs s).data.map ProxyItem.node⟩) content =
      (classifyContent cs content).map (fun r => (r.1.map ProxyItem.node, r.2)) := by
  simp only [classifyContentRaw, classifyContent]
  by_cases h1 : (parse_txt_content (parse_base64_config content 0)).success
  · simp [h1]
  · by_cases h2 : (cs (parse_base64_config content 0)).success
    · simp [h1, h2]
    · simp [h1, h2]

/-- C10 (failing-input evaluation): the report invariant fails on the
source.  On a single link whose content clash-parses to a proxies element
with a non-string `type` value, success_count is incremented before
add_nodes raises, the per-link except then increments failure_count and
appends a failure for the same link, and the final report counts that one
link in BOTH counters: success_count + failure_count = 2 ≠ 1 = total
links. -/
theorem C10_report_double_count :
    parse_node_links c10ClashStage (fun _ => some c10Content) ["src"] =
      { total_links := 1, success_count := 1, failure_count := 1, total_nodes := 0,
        nodes := [], failures := [⟨"src", "处理异常"⟩] } ∧
    (parse_node_links c10ClashStage (fun _ => some c10Content) ["src"]).success_count +
      (parse_node_links c10ClashStage (fun _ => some c10Content) ["src"]).failure_count ≠
      ["src"].length := by
  have h0 : parse_base64_config c10Content 0 = c10Content :=
    parse_base64_config_not_b64 _ 0 (by decide)
  constructor
  · simp only [parse_node_links, List.foldl, processLink, classifyContentRaw, h0]
    decide
  · simp only [parse_node_links, List.foldl, processLink, classifyContentRaw, h0]
    decide
